import Mathlib

/-!
Verification development for the Gemini CV extraction engine of the
`hr_recruitment_gemini` Odoo addon (models/hr_applicant.py).

The Python source is shallowly embedded: pure helpers become Lean functions,
the record store (Odoo ORM) becomes explicit state passing over a `TaxEnv`
taxonomy state and an `Applicant` record, savepoint/rollback semantics become
`Except`-valued steps whose failure discards the candidate state, and the
external Gemini provider together with Python `json.loads` are abstracted as
parameters (`providerResponse`, `decode`).
-/

namespace GeminiCv

/- ---------------------------------------------------------------------
   Python-style string primitives
   --------------------------------------------------------------------- -/

/-- Characters treated as whitespace by Python `str.strip` and the regex
class `\s` (space, tab, newline, carriage return, vertical tab, form feed). -/
def pyIsSpace (c : Char) : Bool :=
  c == ' ' || c == '\t' || c == '\n' || c == '\r' || c == '\x0b' || c == '\x0c'

/-- Python `str.strip()`: drop leading and trailing whitespace. -/
def pyStrip (s : String) : String :=
  String.mk (((s.toList.dropWhile pyIsSpace).reverse.dropWhile pyIsSpace).reverse)

/-- Python `str.lower()` (modelled with `Char.toLower`). -/
def pyLowerStr (s : String) : String :=
  String.mk (s.toList.map Char.toLower)

/-- Python `str.endswith(suffix)`. -/
def pyEndsWith (s suffix : String) : Bool :=
  suffix.toList.isSuffixOf s.toList

def lbraceChar : Char := Char.ofNat 123

def rbraceChar : Char := Char.ofNat 125

def aposChar : Char := Char.ofNat 39

def pctChar : Char := '%'

def underscoreChar : Char := '_'

def backslashChar : Char := '\\'

/-- Tokens of a SQL `LIKE` pattern: `%` (any sequence), `_` (any single
character), a literal character (possibly backslash-escaped), and `bad` for
a pattern ending in a bare escape character (which matches nothing). -/
inductive LikeTok where
  | any
  | one
  | lit (c : Char)
  | bad
deriving DecidableEq

/-- Tokenize a `LIKE` pattern, resolving backslash escapes. -/
def likeTokens : List Char → List LikeTok
  | [] => []
  | [c] =>
    if c == pctChar then [LikeTok.any]
    else if c == underscoreChar then [LikeTok.one]
    else if c == backslashChar then [LikeTok.bad]
    else [LikeTok.lit c]
  | c :: c2 :: cs =>
    if c == pctChar then LikeTok.any :: likeTokens (c2 :: cs)
    else if c == underscoreChar then LikeTok.one :: likeTokens (c2 :: cs)
    else if c == backslashChar then LikeTok.lit c2 :: likeTokens cs
    else LikeTok.lit c :: likeTokens (c2 :: cs)

/-- Fuelled matcher of a tokenized `LIKE` pattern against a string; the
fuel only bounds recursion depth (every call consumes one token or one
character, so `tokens + chars + 1` fuel is always enough). -/
def likeRunF : Nat → List LikeTok → List Char → Bool
  | 0, _, _ => false
  | _ + 1, [], s => s.isEmpty
  | _ + 1, LikeTok.bad :: _, _ => false
  | n + 1, LikeTok.any :: ts, [] => likeRunF n ts []
  | n + 1, LikeTok.any :: ts, d :: s2 =>
    likeRunF n ts (d :: s2) || likeRunF n (LikeTok.any :: ts) s2
  | _ + 1, LikeTok.one :: _, [] => false
  | n + 1, LikeTok.one :: ts, _ :: s2 => likeRunF n ts s2
  | _ + 1, LikeTok.lit _ :: _, [] => false
  | n + 1, LikeTok.lit c :: ts, d :: s2 => c == d && likeRunF n ts s2

/-- SQL `LIKE` pattern matching as used by Postgres (hence by the Odoo
`=ilike` operator once both sides are lowercased): `%` matches any sequence,
`_` matches any single character, a backslash escapes the next pattern
character; a pattern ending in a bare backslash matches nothing. -/
def likeMatch (pat : List Char) (s : List Char) : Bool :=
  likeRunF (pat.length + s.length + 1) (likeTokens pat) s

/-- Odoo `(name, =ilike, pat)` search predicate: the searched value `pat`
is used verbatim as a case-insensitive LIKE pattern against the stored name. -/
def ilikeMatch (pat s : String) : Bool :=
  likeMatch (pyLowerStr pat).toList (pyLowerStr s).toList

/-- Index of the first occurrence of `needle` in the list, if any. -/
def findSubIdx (needle : List Char) : List Char → Option Nat
  | [] => if needle.isEmpty then some 0 else none
  | h :: t =>
    if needle.isPrefixOf (h :: t) then some 0
    else (findSubIdx needle t).map (· + 1)

/- ---------------------------------------------------------------------
   Response parser (_parse_gemini_response, lines 321-359)
   --------------------------------------------------------------------- -/

/-- Opening delimiter of the regex `(three backticks)json\n(.*?)\n(three
backticks)` used by `_parse_gemini_response`. -/
def fenceOpenStr : String := "```json\n"

/-- Closing delimiter of the fenced-JSON regex. -/
def fenceCloseStr : String := "\n```"

/-- Leftmost-match search for the fenced regex: at the first position where
the opening delimiter matches and the closing delimiter occurs later, return
the (lazy, i.e. shortest) interior. Mirrors `re.search` with a non-greedy
group under `re.DOTALL`. -/
def findFencedAux (openL closeL : List Char) : List Char → Option (List Char)
  | [] => none
  | c :: rest =>
    if openL.isPrefixOf (c :: rest) then
      match findSubIdx closeL ((c :: rest).drop openL.length) with
      | some j => some (((c :: rest).drop openL.length).take j)
      | none => findFencedAux openL closeL rest
    else findFencedAux openL closeL rest

/-- Interior of the first fenced ```json block of the response, if any
(regex search at line 330 of hr_applicant.py). -/
def findFencedJson (s : String) : Option String :=
  (findFencedAux fenceOpenStr.toList fenceCloseStr.toList s.toList).map String.mk

/-- Split a list at the first occurrence of `c`: `l = before ++ c :: after`
with `c` not in `before`. -/
def breakAtFirst (c : Char) : List Char → Option (List Char × List Char)
  | [] => none
  | x :: xs =>
    if x == c then some ([], xs)
    else (breakAtFirst c xs).map (fun p => (x :: p.1, p.2))

/-- Split a list at the last occurrence of `c`: `l = before ++ c :: after`
with `c` not in `after`. -/
def breakAtLast (c : Char) (l : List Char) : Option (List Char × List Char) :=
  (breakAtFirst c l.reverse).map (fun p => (p.2.reverse, p.1.reverse))

/-- Greedy-span regex of line 335 (an opening brace, then `.*` under DOTALL,
then a closing brace): the substring running from the first opening brace to
the last closing brace after it, if both exist. -/
def braceSpan (s : String) : Option String :=
  match breakAtFirst lbraceChar s.toList with
  | none => none
  | some (_, rest) =>
    match breakAtLast rbraceChar rest with
    | none => none
    | some (mid, _) => some (String.mk (lbraceChar :: (mid ++ [rbraceChar])))

/- ---------------------------------------------------------------------
   JSON values as produced by json.loads (abstracted decoder)
   --------------------------------------------------------------------- -/

/-- Structured payload values. `jobj` models a Python dict produced by
`json.loads` (keys unique). Numbers are modelled as integers; the extraction
payloads of interest carry only strings, lists and dicts. -/
inductive JVal where
  | jnull
  | jbool (b : Bool)
  | jnum (n : Int)
  | jstr (s : String)
  | jarr (items : List JVal)
  | jobj (fields : List (String × JVal))

/-- Python truthiness of a payload value. -/
def pyTruthy : JVal → Bool
  | .jnull => false
  | .jbool b => b
  | .jnum n => n != 0
  | .jstr s => s != ""
  | .jarr items => !items.isEmpty
  | .jobj fields => !fields.isEmpty

/-- Python `dict.get(key)`: the value stored under `key`, or `None`
(modelled as `jnull`) when absent. -/
def pyGet (fs : List (String × JVal)) (k : String) : JVal :=
  match fs.find? (fun p => p.1 == k) with
  | some p => p.2
  | none => .jnull

/-- Textual rendering of a payload value when the source drops it into a
text field or a format string. Only string values are exercised by the
claims; other cases approximate Python `str()`. -/
def jvalText : JVal → String
  | .jnull => "None"
  | .jbool true => "True"
  | .jbool false => "False"
  | .jnum n => toString n
  | .jstr s => s
  | .jarr _ => "[...]"
  | .jobj _ => "dict"

/-- Python `.lower()` attempted on a payload value: succeeds only on
strings, any other (`None`, int, list, dict) raises `AttributeError`. -/
def msgAttrLower : String := "AttributeError: object has no attribute lower"

/-- Error raised by `.get` on a non-dict value. -/
def msgAttrGet : String := "AttributeError: object has no attribute get"

/-- Extract the underlying string of a value at a point where the source
calls a `str` method on it (raising `AttributeError` otherwise). -/
def pyStrE : JVal → Except String String
  | .jstr s => .ok s
  | _ => .error msgAttrLower

/-- Message head of the `UserError` raised at lines 356-359 when the
response cannot be parsed; the raw response text is appended. -/
def parseFailHead : String :=
  "Gemini returned an invalid response that could not be parsed. Raw text: "

/-- Decode one candidate substring the way lines 346-359 do: strip it, run
`json.loads` (the abstract `decode`), and on decode failure raise the
`UserError` carrying the original raw response text. -/
def decodeCandidate (decode : String → Option JVal) (raw candidate : String) :
    Except String JVal :=
  match decode (pyStrip candidate) with
  | some v => .ok v
  | none => .error (parseFailHead ++ raw)

/-- Shallow embedding of `_parse_gemini_response` (lines 321-359): prefer
the interior of a fenced ```json block; otherwise the greedy first-brace to
last-brace span; otherwise fail. The candidate is stripped and decoded; any
decode failure (and the no-candidate case) surfaces as the `UserError`
carrying the raw text. -/
def parseGeminiResponse (decode : String → Option JVal) (response_text : String) :
    Except String JVal :=
  match findFencedJson response_text with
  | some interior =>
    (match decode (pyStrip interior) with
     | some v => .ok v
     | none => .error (parseFailHead ++ response_text))
  | none =>
    match braceSpan response_text with
    | some span =>
      (match decode (pyStrip span) with
       | some v => .ok v
       | none => .error (parseFailHead ++ response_text))
    | none => .error (parseFailHead ++ response_text)

/- ---------------------------------------------------------------------
   Record store: target record and reference taxonomy
   --------------------------------------------------------------------- -/

/-- Values of the `gemini_extract_state` selection field (lines 64-77). -/
inductive ExtractState where
  | no_extract
  | pending
  | processing
  | done
  | error
deriving DecidableEq

/-- Main attachment of an applicant: declared MIME type and (base64) data;
an empty `datas` models a falsy/empty attachment payload. -/
structure Attachment where
  mimetype : String
  datas : String
deriving DecidableEq

/-- Target record: the fields of `hr.applicant` read or written by the
extraction engine. -/
structure Applicant where
  id : Nat
  name : String
  partner_name : String
  email_from : String
  partner_phone : String
  linkedin_profile : String
  type_id : Option Nat
  message_main_attachment_id : Option Attachment
  gemini_extract_state : ExtractState
  gemini_extract_status : String
deriving DecidableEq

/-- Taxonomy record `hr.recruitment.degree`. -/
structure Degree where
  id : Nat
  name : String
deriving DecidableEq

/-- Taxonomy record `hr.skill.type` with its allowed-level set. -/
structure SkillType where
  id : Nat
  name : String
  skill_level_ids : List Nat
deriving DecidableEq

/-- Taxonomy record `hr.skill.level`. -/
structure SkillLevel where
  id : Nat
  name : String
  level_progress : Nat
deriving DecidableEq

/-- Taxonomy record `hr.skill`. -/
structure Skill where
  id : Nat
  name : String
  skill_type_id : Nat
deriving DecidableEq

/-- Join record `hr.applicant.skill`. -/
structure ApplicantSkill where
  applicant_id : Nat
  skill_id : Nat
  skill_level_id : Nat
  skill_type_id : Nat
deriving DecidableEq

/-- Persisted reference-taxonomy state. Lists are in storage order: `search`
with `limit=1` returns the first match, `create` appends a fresh record
numbered by `next_id`. -/
structure TaxEnv where
  degrees : List Degree
  skill_types : List SkillType
  skill_levels : List SkillLevel
  skills : List Skill
  applicant_skills : List ApplicantSkill
  next_id : Nat
deriving DecidableEq

/-- Combined persisted state handled by one extraction job. -/
structure World where
  applicant : Applicant
  env : TaxEnv
deriving DecidableEq

def createDegree (env : TaxEnv) (nm : String) : Degree × TaxEnv :=
  let d : Degree := { id := env.next_id, name := nm }
  (d, { env with degrees := env.degrees ++ [d], next_id := env.next_id + 1 })

def createSkillType (env : TaxEnv) (nm : String) : SkillType × TaxEnv :=
  let t : SkillType := { id := env.next_id, name := nm, skill_level_ids := [] }
  (t, { env with skill_types := env.skill_types ++ [t], next_id := env.next_id + 1 })

def createSkillLevel (env : TaxEnv) (nm : String) (prog : Nat) : SkillLevel × TaxEnv :=
  let l : SkillLevel := { id := env.next_id, name := nm, level_progress := prog }
  (l, { env with skill_levels := env.skill_levels ++ [l], next_id := env.next_id + 1 })

def createSkill (env : TaxEnv) (nm : String) (tid : Nat) : Skill × TaxEnv :=
  let s : Skill := { id := env.next_id, name := nm, skill_type_id := tid }
  (s, { env with skills := env.skills ++ [s], next_id := env.next_id + 1 })

/-- `hr.recruitment.degree` search `[(name, =ilike, pat)]` limit 1. -/
def findDegree (env : TaxEnv) (pat : String) : Option Degree :=
  env.degrees.find? (fun d => ilikeMatch pat d.name)

/-- `hr.skill.type` search `[(name, =ilike, pat)]` limit 1. -/
def findSkillTypeByName (env : TaxEnv) (pat : String) : Option SkillType :=
  env.skill_types.find? (fun t => ilikeMatch pat t.name)

/-- `hr.skill.level` search by name pattern and exact progress, limit 1. -/
def findLevelPair (env : TaxEnv) (pat : String) (prog : Nat) : Option SkillLevel :=
  env.skill_levels.find? (fun l => ilikeMatch pat l.name && l.level_progress == prog)

/-- `hr.skill.level` search `[(name, =ilike, pat)]` limit 1. -/
def findLevelByName (env : TaxEnv) (pat : String) : Option SkillLevel :=
  env.skill_levels.find? (fun l => ilikeMatch pat l.name)

/-- `hr.skill` search `[(name, =ilike, pat)]` limit 1. -/
def findSkillByName (env : TaxEnv) (pat : String) : Option Skill :=
  env.skills.find? (fun s => ilikeMatch pat s.name)

/-- `hr.applicant.skill` search by applicant and skill, limit 1. -/
def findLink (env : TaxEnv) (aid sid : Nat) : Option ApplicantSkill :=
  env.applicant_skills.find? (fun l => l.applicant_id == aid && l.skill_id == sid)

/-- Search `[(level_progress, >, 0)]` ordered by `level_progress asc`
with limit 1: the first level of minimal positive progress. -/
def minPositiveLevel (ls : List SkillLevel) : Option SkillLevel :=
  (ls.filter (fun l => 0 < l.level_progress)).foldl
    (fun acc l =>
      match acc with
      | none => some l
      | some m => if l.level_progress < m.level_progress then some l else acc)
    none

/-- Live read of a skill type record by id (recordset field access). -/
def typeLevelIds (env : TaxEnv) (tid : Nat) : List Nat :=
  match env.skill_types.find? (fun t => t.id == tid) with
  | some t => t.skill_level_ids
  | none => []

/-- Write `skill_type.write(skill_level_ids = [(4, level_id)])`: link the
level to the type (a no-op at the relation level when already linked; the
source guards the write with a membership test anyway). -/
def addLevelToType (env : TaxEnv) (tid lid : Nat) : TaxEnv :=
  { env with
    skill_types := env.skill_types.map
      (fun t => if t.id == tid then { t with skill_level_ids := t.skill_level_ids ++ [lid] } else t) }

/-- Write `skill.write(skill_type_id = tid)` on an existing skill. -/
def setSkillTypeId (env : TaxEnv) (sid tid : Nat) : TaxEnv :=
  { env with
    skills := env.skills.map
      (fun s => if s.id == sid then { s with skill_type_id := tid } else s) }

/- ---------------------------------------------------------------------
   Default skill level (_get_or_create_default_skill_level, lines 420-468)
   --------------------------------------------------------------------- -/

def defaultLevelName : String := "Beginner"

def defaultLevelProgress : Nat := 15

/-- Shallow embedding of `_get_or_create_default_skill_level`: exact
(name, progress) match, else any record named Beginner, else the lowest
positive-progress level, else create the canonical Beginner/15 level.
Creation always succeeds in the model record store, so the cascade is total. -/
def getOrCreateDefaultSkillLevel (env : TaxEnv) : SkillLevel × TaxEnv :=
  match findLevelPair env defaultLevelName defaultLevelProgress with
  | some l => (l, env)
  | none =>
    match findLevelByName env defaultLevelName with
    | some l => (l, env)
    | none =>
      match minPositiveLevel env.skill_levels with
      | some l => (l, env)
      | none => createSkillLevel env defaultLevelName defaultLevelProgress

/- ---------------------------------------------------------------------
   Skill level label parsing (regex of line 529)
   --------------------------------------------------------------------- -/

def lparenChar : Char := '('

def rparenChar : Char := ')'

/-- Attempt to match `\s*\((\d+)%\)` as a prefix of `l` (the part of the
level regex following the lazy name group); returns the captured integer. -/
def matchParenPct (l : List Char) : Option Nat :=
  match l.dropWhile pyIsSpace with
  | c :: rest =>
    if c == lparenChar then
      let ds := rest.takeWhile Char.isDigit
      if ds.isEmpty then none
      else
        match rest.dropWhile Char.isDigit with
        | p :: q :: _ =>
          if p == pctChar && q == rparenChar then
            some (ds.foldl (fun n d => n * 10 + (d.toNat - 48)) 0)
          else none
        | _ => none
    else none
  | [] => none

/-- Lazy scan for the regex `(.+?)\s*\((\d+)%\)` anchored at the start
(`re.match`): the shortest nonempty newline-free name group followed by a
parenthesised percentage. `seen` accumulates the name group so far. -/
def parseLevelAux (seen : List Char) : List Char → Option (List Char × Nat)
  | [] => none
  | c :: rest =>
    if c == '\n' then none
    else
      match matchParenPct rest with
      | some n => some (seen ++ [c], n)
      | none => parseLevelAux (seen ++ [c]) rest

/-- Result of `re.match(r"(.+?)\s*\((\d+)%\)", label)`: the raw group(1)
text and the integer group(2), if the label matches. -/
def parseLevelLabel (s : String) : Option (String × Nat) :=
  (parseLevelAux [] s.toList).map (fun p => (String.mk p.1, p.2))

/-- Lines 528-547 of `_process_skills` on a level-cache miss: parse the
composite label; on parse success try the (clean name, progress) pair
search; fall back to a name search with the whole label; if still nothing
but the label parsed, create a level from the parsed name and progress.
Returns the resolved level (if any) and the possibly extended taxonomy. -/
def resolveLevelNoCache (env : TaxEnv) (label : String) : Option SkillLevel × TaxEnv :=
  match parseLevelLabel label with
  | some (g1, prog) =>
    match findLevelPair env (pyStrip g1) prog with
    | some l => (some l, env)
    | none =>
      match findLevelByName env label with
      | some l => (some l, env)
      | none =>
        let c := createSkillLevel env (pyStrip g1) prog
        (some c.1, c.2)
  | none =>
    match findLevelByName env label with
    | some l => (some l, env)
    | none => (none, env)

/- ---------------------------------------------------------------------
   Skills reconciler (_process_skills, lines 470-603)
   --------------------------------------------------------------------- -/

def keySkill : String := "skill"

def keyType : String := "type"

def keyLevel : String := "level"

def keySkills : String := "skills"

def generalTypeName : String := "General"

/-- Mutable local state of one `_process_skills` run: the taxonomy plus the
per-run caches (keyed by lowercased name, holding the resolved records) and
the lazily computed default level. -/
structure PState where
  env : TaxEnv
  type_cache : List (String × SkillType)
  level_cache : List (String × SkillLevel)
  skill_cache : List (String × Skill)
  default_level : Option SkillLevel
deriving DecidableEq

/-- Python `cache.get(key)` on an association list. -/
def cacheLookup (c : List (String × α)) (k : String) : Option α :=
  match c.find? (fun p => p.1 == k) with
  | some p => some p.2
  | none => none

/-- Lines 513-520: find or create the skill type, through the per-run
cache. Raises `AttributeError` when the type value is a truthy non-string
(the source lowercases it). -/
def resolveTypeStep (st : PState) (tv : JVal) : Except String (SkillType × PState) :=
  match tv with
  | .jstr tname =>
    let low := pyLowerStr tname
    match cacheLookup st.type_cache low with
    | some t => .ok (t, st)
    | none =>
      match findSkillTypeByName st.env tname with
      | some t => .ok (t, { st with type_cache := st.type_cache ++ [(low, t)] })
      | none =>
        let c := createSkillType st.env tname
        .ok (c.1, { st with env := c.2, type_cache := st.type_cache ++ [(low, c.1)] })
  | _ => .error msgAttrLower

/-- Lines 552-556: when no level was resolved, use the (lazily computed,
cached once per run) default level. -/
def applyDefaultLevel (st : PState) : SkillLevel × PState :=
  match st.default_level with
  | some d => (d, st)
  | none =>
    let c := getOrCreateDefaultSkillLevel st.env
    (c.1, { st with env := c.2, default_level := some c.1 })

/-- Lines 522-556: resolve the skill level for the (possibly absent) level
value of one skill entry: falsy value skips straight to the default level;
a truthy non-string raises; a string goes through the cache, then
`resolveLevelNoCache`, caching a non-default result. -/
def resolveLevelStep (st : PState) (lv : JVal) : Except String (SkillLevel × PState) :=
  if pyTruthy lv then
    match lv with
    | .jstr s =>
      let low := pyLowerStr s
      match cacheLookup st.level_cache low with
      | some l => .ok (l, st)
      | none =>
        match resolveLevelNoCache st.env s with
        | (some l, env2) =>
          .ok (l, { st with env := env2, level_cache := st.level_cache ++ [(low, l)] })
        | (none, env2) =>
          let d := applyDefaultLevel { st with env := env2 }
          .ok d
    | _ => .error msgAttrLower
  else
    .ok (applyDefaultLevel st)

/-- Lines 562-577: find or create the skill, through the per-run cache; an
existing skill found with a different type is retyped in place. -/
def resolveSkillStep (st : PState) (sv : JVal) (tid : Nat) : Except String (Skill × PState) :=
  match sv with
  | .jstr sname =>
    let low := pyLowerStr sname
    match cacheLookup st.skill_cache low with
    | some sk => .ok (sk, st)
    | none =>
      match findSkillByName st.env sname with
      | none =>
        let c := createSkill st.env sname tid
        .ok (c.1, { st with env := c.2, skill_cache := st.skill_cache ++ [(low, c.1)] })
      | some sk =>
        if sk.skill_type_id != tid then
          let sk2 := { sk with skill_type_id := tid }
          .ok (sk2, { st with env := setSkillTypeId st.env sk.id tid,
                              skill_cache := st.skill_cache ++ [(low, sk2)] })
        else
          .ok (sk, { st with skill_cache := st.skill_cache ++ [(low, sk)] })
  | _ => .error msgAttrLower

/-- Lines 579-591: create the applicant-skill link only when no link for
the `(applicant, skill)` pair exists. -/
def linkStep (aid : Nat) (env : TaxEnv) (sid lid tid : Nat) : TaxEnv :=
  match findLink env aid sid with
  | some _ => env
  | none =>
    { env with
      applicant_skills := env.applicant_skills ++
        [{ applicant_id := aid, skill_id := sid, skill_level_id := lid, skill_type_id := tid }] }

/-- One iteration of the `for skill_obj in gemini_skills_list` loop (lines
499-603): non-dict entries and entries with a falsy skill name are skipped;
inside the per-item try-block any failure propagates and aborts the batch. -/
def processSkillItem (aid : Nat) (st : PState) (item : JVal) : Except String PState :=
  match item with
  | .jobj fs =>
    let skillV := pyGet fs keySkill
    let typeVraw := pyGet fs keyType
    let typeV := if pyTruthy typeVraw then typeVraw else .jstr generalTypeName
    let levelV := pyGet fs keyLevel
    if !(pyTruthy skillV) then .ok st
    else
      match resolveTypeStep st typeV with
      | .error e => .error e
      | .ok (tp, st1) =>
        match resolveLevelStep st1 levelV with
        | .error e => .error e
        | .ok (lvl, st2) =>
          let st3 :=
            if (typeLevelIds st2.env tp.id).contains lvl.id then st2
            else { st2 with env := addLevelToType st2.env tp.id lvl.id }
          match resolveSkillStep st3 skillV tp.id with
          | .error e => .error e
          | .ok (sk, st4) =>
            .ok { st4 with env := linkStep aid st4.env sk.id lvl.id tp.id }
  | _ => .ok st

/-- Loop of `_process_skills` over the list items, threading the caches. -/
def processSkillsGo (aid : Nat) (st : PState) : List JVal → Except String TaxEnv
  | [] => .ok st.env
  | i :: rest =>
    match processSkillItem aid st i with
    | .error e => .error e
    | .ok st2 => processSkillsGo aid st2 rest

/-- Shallow embedding of `_process_skills` (lines 470-603): a falsy or
non-list value is ignored (warning, early return); otherwise each entry is
reconciled in turn and the first in-item failure aborts the whole batch. -/
def processSkills (aid : Nat) (env : TaxEnv) (v : JVal) : Except String TaxEnv :=
  if !(pyTruthy v) then .ok env
  else
    match v with
    | .jarr items =>
      processSkillsGo aid
        { env := env, type_cache := [], level_cache := [], skill_cache := [],
          default_level := none } items
    | _ => .ok env

/-- Savepoint-wrapped skills step of `_run_gemini_extraction` (lines
269-285): a failure rolls the taxonomy back to its pre-step state. -/
def runSkillsStep (aid : Nat) (env : TaxEnv) (v : JVal) : TaxEnv :=
  match processSkills aid env v with
  | .ok env2 => env2
  | .error _ => env

/- ---------------------------------------------------------------------
   Field writer (_write_extracted_data, lines 361-418)
   --------------------------------------------------------------------- -/

def keyName : String := "name"

def keyEmail : String := "email"

def keyPhone : String := "phone"

def keyLinkedin : String := "linkedin"

def keyDegree : String := "degree"

/-- Display-name convention suffix appended by the engine (the literal
the apostrophe-s Application suffix, written here without a source-level apostrophe). -/
def applicationSuffix : String := String.singleton aposChar ++ "s Application"

/-- Lines 390-408: case-insensitive degree lookup, creating the degree when
absent; `degreeCreateOk = false` models a failing `create`, whose exception
is logged and swallowed so no degree is resolved. -/
def resolveDegree (degreeCreateOk : Bool) (env : TaxEnv) (dname : String) :
    Option Degree × TaxEnv :=
  match findDegree env dname with
  | some d => (some d, env)
  | none =>
    if degreeCreateOk then
      let c := createDegree env dname
      (some c.1, c.2)
    else (none, env)

/-- Write set accumulated by `_write_extracted_data`; `none` means the field
is not part of the write. -/
structure WriteVals where
  partner_name : Option String := none
  name : Option String := none
  email_from : Option String := none
  partner_phone : Option String := none
  linkedin_profile : Option String := none
  type_id : Option Nat := none
deriving DecidableEq

/-- Application of a write set to the record (`self.write(write_vals)`). -/
def applyWriteVals (a : Applicant) (v : WriteVals) : Applicant :=
  { a with
    partner_name := v.partner_name.getD a.partner_name,
    name := v.name.getD a.name,
    email_from := v.email_from.getD a.email_from,
    partner_phone := v.partner_phone.getD a.partner_phone,
    linkedin_profile := v.linkedin_profile.getD a.linkedin_profile,
    type_id := match v.type_id with | some i => some i | none => a.type_id }

/-- Lines 374-379: the name block of `_write_extracted_data`. The display
name is replaced only when currently empty or ending in the convention
suffix. -/
def nameBlock (a : Applicant) (fs : List (String × JVal)) (v : WriteVals) : WriteVals :=
  let nameV := pyGet fs keyName
  if pyTruthy nameV then
    let nm := jvalText nameV
    let base := { v with partner_name := some nm }
    if a.name == "" || pyEndsWith a.name applicationSuffix then
      { base with name := some (nm ++ applicationSuffix) }
    else base
  else v

/-- Lines 381-382: the email block. -/
def emailBlock (fs : List (String × JVal)) (v : WriteVals) : WriteVals :=
  let emailV := pyGet fs keyEmail
  if pyTruthy emailV then { v with email_from := some (jvalText emailV) } else v

/-- Lines 384-385: the phone block. -/
def phoneBlock (fs : List (String × JVal)) (v : WriteVals) : WriteVals :=
  let phoneV := pyGet fs keyPhone
  if pyTruthy phoneV then { v with partner_phone := some (jvalText phoneV) } else v

/-- Lines 387-388: the linkedin block. -/
def linkedinBlock (fs : List (String × JVal)) (v : WriteVals) : WriteVals :=
  let liV := pyGet fs keyLinkedin
  if pyTruthy liV then { v with linkedin_profile := some (jvalText liV) } else v

/-- Lines 390-408: the degree block, resolving (and possibly creating) the
degree through `resolveDegree`; a swallowed creation failure leaves
`type_id` unset. -/
def degreeBlock (degreeCreateOk : Bool) (env : TaxEnv) (fs : List (String × JVal))
    (v : WriteVals) : WriteVals × TaxEnv :=
  let degV := pyGet fs keyDegree
  if pyTruthy degV then
    match resolveDegree degreeCreateOk env (jvalText degV) with
    | (some d, env2) => ({ v with type_id := some d.id }, env2)
    | (none, env2) => (v, env2)
  else (v, env)

/-- Lines 372-408: build the write set from a payload dict, block by block
in source order. -/
def extractedWriteVals (degreeCreateOk : Bool) (a : Applicant) (env : TaxEnv)
    (fs : List (String × JVal)) : WriteVals × TaxEnv :=
  degreeBlock degreeCreateOk env fs
    (linkedinBlock fs (phoneBlock fs (emailBlock fs (nameBlock a fs {}))))

/-- Shallow embedding of `_write_extracted_data` (lines 361-418): a falsy
payload writes nothing; a truthy non-dict raises `AttributeError` (the
source immediately calls `.get` on it); a dict is turned into a write set
and applied. -/
def writeExtractedData (degreeCreateOk : Bool) (w : World) (data : JVal) :
    Except String World :=
  if !(pyTruthy data) then .ok w
  else
    match data with
    | .jobj fs =>
      let r := extractedWriteVals degreeCreateOk w.applicant w.env fs
      .ok { applicant := applyWriteVals w.applicant r.1, env := r.2 }
    | _ => .error msgAttrGet

/- ---------------------------------------------------------------------
   Extraction job (_run_gemini_extraction, lines 186-319)
   --------------------------------------------------------------------- -/

def defaultModelName : String := "gemini-1.5-flash-latest"

def msgNoApiKey : String := "Gemini API Key is not set in HR Settings."

def msgNoModel : String := "Gemini Model is not set in HR Settings."

def msgNoCv : String := "No CV attached."

def msgEmptyCv : String := "Attached CV is empty."

def msgCallingApi : String := "Processing: Calling Gemini API..."

def msgParsing : String := "Processing: Parsing response..."

def successMsg : String := "Successfully extracted data."

def skillsFailMsgHead : String :=
  "Successfully saved simple data, but failed to process skills: "

def errorMsgHead : String := "Error: "

/-- Per-invocation configuration and external collaborators of one job:
the company settings (API key, model name, skills module state), the
outcome of the provider call, and whether a degree `create` would succeed. -/
structure GeminiCtx where
  gemini_api_key : String
  gemini_model : String
  skillsModuleInstalled : Bool
  providerResponse : Except String String
  degreeCreateOk : Bool

/-- Core step of `_run_gemini_extraction` (the first savepoint, lines
202-264): validate configuration, mark the record processing, call the
provider, parse, write scalar fields, and stash the skills value when
present and the skills module is installed. Any failure aborts the whole
unit. -/
def coreStep (ctx : GeminiCtx) (decode : String → Option JVal) (w : World) :
    Except String (World × Option JVal) :=
  if ctx.gemini_api_key == "" then .error msgNoApiKey
  else
    let model_name := if ctx.gemini_model == "" then defaultModelName else ctx.gemini_model
    if model_name == "" then .error msgNoModel
    else
      match w.applicant.message_main_attachment_id with
      | none => .error msgNoCv
      | some att =>
        if att.datas == "" then .error msgEmptyCv
        else
          let a1 := { w.applicant with
            gemini_extract_state := ExtractState.processing,
            gemini_extract_status := msgCallingApi }
          match ctx.providerResponse with
          | .error e => .error e
          | .ok text =>
            let a2 := { a1 with gemini_extract_status := msgParsing }
            match parseGeminiResponse decode text with
            | .error e => .error e
            | .ok extracted =>
              match writeExtractedData ctx.degreeCreateOk { applicant := a2, env := w.env } extracted with
              | .error e => .error e
              | .ok w3 =>
                match extracted with
                | .jobj fs =>
                  let skillsVal := pyGet fs keySkills
                  if pyTruthy skillsVal && ctx.skillsModuleInstalled then
                    .ok (w3, some skillsVal)
                  else .ok (w3, none)
                | _ => .error msgAttrGet

/-- Shallow embedding of the body of the per-applicant loop of
`_run_gemini_extraction` (lines 194-319). A core-step failure rolls every
write of the unit back (the record and taxonomy revert to their committed
pre-job values) and the error state and status are written through a fresh,
isolated cursor. A skills-step failure rolls back only the skills writes
and the job still finishes `done` with a partial-success status. -/
def runGeminiExtraction (ctx : GeminiCtx) (decode : String → Option JVal) (w : World) :
    World :=
  match coreStep ctx decode w with
  | .error e =>
    { w with applicant := { w.applicant with
        gemini_extract_state := ExtractState.error,
        gemini_extract_status := errorMsgHead ++ e } }
  | .ok (w1, skOpt) =>
    match skOpt with
    | none =>
      { w1 with applicant := { w1.applicant with
          gemini_extract_state := ExtractState.done,
          gemini_extract_status := successMsg } }
    | some sk =>
      match processSkills w1.applicant.id w1.env sk with
      | .ok env2 =>
        { applicant := { w1.applicant with
            gemini_extract_state := ExtractState.done,
            gemini_extract_status := successMsg },
          env := env2 }
      | .error es =>
        { w1 with applicant := { w1.applicant with
            gemini_extract_state := ExtractState.done,
            gemini_extract_status := skillsFailMsgHead ++ es } }

/- ---------------------------------------------------------------------
   Dispatcher and state machine (lines 101-184)
   --------------------------------------------------------------------- -/

def manualSendMode : String := "manual_send"

def msgPendingQueued : String := "Pending: Queued for extraction..."

def msgNoEligible : String := "There are no applicants here that are ready for extraction."

/-- Eligibility predicate `_compute_can_extract_with_gemini` (lines
106-120): company extraction mode is manual-send, a main attachment exists,
and the state allows (re-)running. -/
def canExtractWithGemini (mode : String) (a : Applicant) : Bool :=
  (mode == manualSendMode) && a.message_main_attachment_id.isSome &&
    ((a.gemini_extract_state == ExtractState.no_extract) ||
     (a.gemini_extract_state == ExtractState.error) ||
     (a.gemini_extract_state == ExtractState.done))

/-- Synchronous part of `action_extract_with_gemini` (lines 122-151):
filter to eligible records, fail when none is eligible, otherwise mark the
eligible ones pending (the committed state the background thread starts
from). -/
def actionExtractWithGemini (mode : String) (recs : List Applicant) :
    Except String (List Applicant) :=
  let applicants_to_process := recs.filter (canExtractWithGemini mode)
  if applicants_to_process.isEmpty then .error msgNoEligible
  else
    .ok (recs.map (fun a =>
      if canExtractWithGemini mode a then
        { a with gemini_extract_state := ExtractState.pending,
                 gemini_extract_status := msgPendingQueued }
      else a))

/-- Every site in the source that writes `gemini_extract_state`, as a
transition relation from a record (with the company mode in scope) to the
state written. `submit` is the action write (line 134, guarded by the
eligibility filter of line 129); `start_processing` is the job write of
line 221 (the job begins on a record committed as pending);
`finish_done` is line 288; `core_fail` is the error-handler write of line
312 (reached from a failure before or after the processing write);
`thread_fail` is the thread-level handler write of line 177. -/
inductive GeminiTransition (mode : String) : Applicant → ExtractState → Prop where
  | submit (a : Applicant) (h : canExtractWithGemini mode a = true) :
      GeminiTransition mode a ExtractState.pending
  | start_processing (a : Applicant) (h : a.gemini_extract_state = ExtractState.pending) :
      GeminiTransition mode a ExtractState.processing
  | finish_done (a : Applicant) (h : a.gemini_extract_state = ExtractState.processing) :
      GeminiTransition mode a ExtractState.done
  | core_fail (a : Applicant)
      (h : a.gemini_extract_state = ExtractState.pending ∨
           a.gemini_extract_state = ExtractState.processing) :
      GeminiTransition mode a ExtractState.error
  | thread_fail (a : Applicant) : GeminiTransition mode a ExtractState.error

/- ---------------------------------------------------------------------
   Shared sample data for witnesses
   --------------------------------------------------------------------- -/

/-- Empty reference taxonomy with ids starting at 100. -/
def sampleEnv : TaxEnv :=
  { degrees := [], skill_types := [], skill_levels := [], skills := [],
    applicant_skills := [], next_id := 100 }

/-- Sample attachment with nonempty data. -/
def sampleAtt : Attachment := { mimetype := "application/pdf", datas := "QUJD" }

/-- Sample applicant as committed by the dispatcher (pending, attachment
present, empty display name). -/
def sampleApplicant : Applicant :=
  { id := 7, name := "", partner_name := "", email_from := "", partner_phone := "",
    linkedin_profile := "", type_id := none, message_main_attachment_id := some sampleAtt,
    gemini_extract_state := ExtractState.pending, gemini_extract_status := msgPendingQueued }

/-- Sample world a job starts from. -/
def sampleWorld : World := { applicant := sampleApplicant, env := sampleEnv }

/- ---------------------------------------------------------------------
   Claim C1: parser candidate selection
   --------------------------------------------------------------------- -/

/-- C1: for every raw response string, the parser first looks for a fenced
```json block and, if found, decodes its (stripped) interior; otherwise, if
the response has a span from the first opening brace to the last closing
brace after it, it decodes that greedy span; otherwise it fails with the
parse error carrying the raw text. The fenced block takes precedence over
the brace span, and exactly one of the three outcomes occurs (the three
guards are mutually exclusive). -/
theorem parse_outcome_trichotomy (decode : String → Option JVal) (r : String) :
    ((∃ i, findFencedJson r = some i ∧
        parseGeminiResponse decode r = decodeCandidate decode r i) ∨
     (findFencedJson r = none ∧ (∃ sp, braceSpan r = some sp ∧
        parseGeminiResponse decode r = decodeCandidate decode r sp)) ∨
     (findFencedJson r = none ∧ braceSpan r = none ∧
        parseGeminiResponse decode r = Except.error (parseFailHead ++ r)))
    ∧ ¬((∃ i, findFencedJson r = some i) ∧ findFencedJson r = none)
    ∧ ¬((∃ sp, braceSpan r = some sp) ∧ braceSpan r = none) := by
  refine ⟨?_, ?_, ?_⟩
  · cases hf : findFencedJson r with
    | some i =>
      exact Or.inl ⟨i, rfl, by simp [parseGeminiResponse, decodeCandidate, hf]⟩
    | none =>
      cases hb : braceSpan r with
      | some sp =>
        exact Or.inr (Or.inl ⟨rfl, sp, rfl,
          by simp [parseGeminiResponse, decodeCandidate, hf, hb]⟩)
      | none =>
        exact Or.inr (Or.inr ⟨rfl, rfl, by simp [parseGeminiResponse, hf, hb]⟩)
  · rintro ⟨⟨i, hi⟩, hnone⟩
    rw [hnone] at hi
    exact Option.noConfusion hi
  · rintro ⟨⟨sp, hsp⟩, hnone⟩
    rw [hnone] at hsp
    exact Option.noConfusion hsp

/-- Unit decoder used by the parser witness. -/
def decUnit : String → Option JVal := fun _ => some JVal.jnull

/-- Response text holding both a fenced block and braces, to exercise the
precedence of the fenced block. -/
def rawFenced : String := "x```json" ++ "\n" ++ "\x7b\x7d" ++ "\n" ++ "```y"

/-- Witness for C1: the trichotomy instantiated at a concrete fenced
response and decoder. -/
theorem parse_outcome_trichotomy_witness :
    ((∃ i, findFencedJson rawFenced = some i ∧
        parseGeminiResponse decUnit rawFenced = decodeCandidate decUnit rawFenced i) ∨
     (findFencedJson rawFenced = none ∧ (∃ sp, braceSpan rawFenced = some sp ∧
        parseGeminiResponse decUnit rawFenced = decodeCandidate decUnit rawFenced sp)) ∨
     (findFencedJson rawFenced = none ∧ braceSpan rawFenced = none ∧
        parseGeminiResponse decUnit rawFenced = Except.error (parseFailHead ++ rawFenced)))
    ∧ ¬((∃ i, findFencedJson rawFenced = some i) ∧ findFencedJson rawFenced = none)
    ∧ ¬((∃ sp, braceSpan rawFenced = some sp) ∧ braceSpan rawFenced = none) :=
  parse_outcome_trichotomy decUnit rawFenced

/- ---------------------------------------------------------------------
   Claim C7: default skill level cascade
   --------------------------------------------------------------------- -/

/-- Helper: the stable minimum fold of `minPositiveLevel` only returns an
element of its accumulator or of the list. -/
theorem minFold_mem (l : List SkillLevel) :
    ∀ (acc : Option SkillLevel) (x : SkillLevel),
      l.foldl (fun acc l =>
        match acc with
        | none => some l
        | some m => if l.level_progress < m.level_progress then some l else acc)
        acc = some x →
      acc = some x ∨ x ∈ l := by
  induction l with
  | nil => intro acc x h; exact Or.inl h
  | cons h t ih =>
    intro acc x hf
    rcases ih _ x hf with hstep | hmem
    · cases acc with
      | none =>
        simp only at hstep
        injection hstep with he
        exact Or.inr (by simp [he])
      | some m =>
        simp only at hstep
        by_cases hlt : h.level_progress < m.level_progress
        · rw [if_pos hlt] at hstep
          injection hstep with he
          exact Or.inr (by simp [he])
        · rw [if_neg hlt] at hstep
          exact Or.inl hstep
    · exact Or.inr (List.mem_cons_of_mem _ hmem)

/-- Helper: a level returned by `minPositiveLevel` belongs to the list. -/
theorem minPositiveLevel_mem {ls : List SkillLevel} {l : SkillLevel}
    (h : minPositiveLevel ls = some l) : l ∈ ls := by
  unfold minPositiveLevel at h
  rcases minFold_mem _ none l h with hc | hm
  · exact Option.noConfusion hc
  · exact List.mem_of_mem_filter hm

/-- C7: default-level resolution always returns a level that exists in the
resulting taxonomy (never null, even from an empty taxonomy), through the
cascade: exact Beginner/15 match; else any level named Beginner; else the
lowest positive-progress level; else creation of a new Beginner/15 level. -/
theorem default_level_cascade (env : TaxEnv) :
    ((getOrCreateDefaultSkillLevel env).1 ∈ (getOrCreateDefaultSkillLevel env).2.skill_levels)
  ∧ (∀ l, findLevelPair env defaultLevelName defaultLevelProgress = some l →
       getOrCreateDefaultSkillLevel env = (l, env))
  ∧ (findLevelPair env defaultLevelName defaultLevelProgress = none →
       ∀ l, findLevelByName env defaultLevelName = some l →
         getOrCreateDefaultSkillLevel env = (l, env))
  ∧ (findLevelPair env defaultLevelName defaultLevelProgress = none →
       findLevelByName env defaultLevelName = none →
       ∀ l, minPositiveLevel env.skill_levels = some l →
         getOrCreateDefaultSkillLevel env = (l, env))
  ∧ (findLevelPair env defaultLevelName defaultLevelProgress = none →
       findLevelByName env defaultLevelName = none →
       minPositiveLevel env.skill_levels = none →
       getOrCreateDefaultSkillLevel env =
         createSkillLevel env defaultLevelName defaultLevelProgress ∧
       (getOrCreateDefaultSkillLevel env).1.name = defaultLevelName ∧
       (getOrCreateDefaultSkillLevel env).1.level_progress = defaultLevelProgress) := by
  refine ⟨?_, ?_, ?_, ?_, ?_⟩
  · unfold getOrCreateDefaultSkillLevel
    cases h1 : findLevelPair env defaultLevelName defaultLevelProgress with
    | some l =>
      simpa using List.mem_of_find?_eq_some h1
    | none =>
      cases h2 : findLevelByName env defaultLevelName with
      | some l =>
        simpa using List.mem_of_find?_eq_some h2
      | none =>
        cases h3 : minPositiveLevel env.skill_levels with
        | some l => simpa using minPositiveLevel_mem h3
        | none => simp [createSkillLevel]
  · intro l h
    unfold getOrCreateDefaultSkillLevel
    rw [h]
  · intro h1 l h2
    unfold getOrCreateDefaultSkillLevel
    rw [h1, h2]
  · intro h1 h2 l h3
    unfold getOrCreateDefaultSkillLevel
    rw [h1, h2, h3]
  · intro h1 h2 h3
    refine ⟨?_, ?_, ?_⟩
    · unfold getOrCreateDefaultSkillLevel
      rw [h1, h2, h3]
    · unfold getOrCreateDefaultSkillLevel
      rw [h1, h2, h3]
      simp [createSkillLevel]
    · unfold getOrCreateDefaultSkillLevel
      rw [h1, h2, h3]
      simp [createSkillLevel]

/-- Witness for C7: on the empty taxonomy every lookup misses and a fresh
Beginner/15 level is created. -/
theorem default_level_cascade_witness :
    getOrCreateDefaultSkillLevel sampleEnv =
      createSkillLevel sampleEnv defaultLevelName defaultLevelProgress
  ∧ (getOrCreateDefaultSkillLevel sampleEnv).1.name = defaultLevelName
  ∧ (getOrCreateDefaultSkillLevel sampleEnv).1.level_progress = defaultLevelProgress :=
  (default_level_cascade sampleEnv).2.2.2.2 (by decide) (by decide) (by decide)

/- ---------------------------------------------------------------------
   Helper lemmas: write-set projections, literal LIKE patterns
   --------------------------------------------------------------------- -/

theorem nameBlock_name (a : Applicant) (fs : List (String × JVal)) (v : WriteVals) :
    (nameBlock a fs v).name =
      (if pyTruthy (pyGet fs keyName) then
        (if a.name == "" || pyEndsWith a.name applicationSuffix then
          some (jvalText (pyGet fs keyName) ++ applicationSuffix)
        else v.name)
      else v.name) := by
  simp only [nameBlock]
  split
  · split <;> rfl
  · rfl

theorem nameBlock_partner_name (a : Applicant) (fs : List (String × JVal)) (v : WriteVals) :
    (nameBlock a fs v).partner_name =
      (if pyTruthy (pyGet fs keyName) then some (jvalText (pyGet fs keyName))
       else v.partner_name) := by
  simp only [nameBlock]
  split
  · split <;> rfl
  · rfl

theorem nameBlock_email (a : Applicant) (fs : List (String × JVal)) (v : WriteVals) :
    (nameBlock a fs v).email_from = v.email_from := by
  simp only [nameBlock]
  split
  · split <;> rfl
  · rfl

theorem nameBlock_type_id (a : Applicant) (fs : List (String × JVal)) (v : WriteVals) :
    (nameBlock a fs v).type_id = v.type_id := by
  simp only [nameBlock]
  split
  · split <;> rfl
  · rfl

theorem emailBlock_name (fs : List (String × JVal)) (v : WriteVals) :
    (emailBlock fs v).name = v.name := by
  simp only [emailBlock]
  split <;> rfl

theorem emailBlock_partner_name (fs : List (String × JVal)) (v : WriteVals) :
    (emailBlock fs v).partner_name = v.partner_name := by
  simp only [emailBlock]
  split <;> rfl

theorem emailBlock_email (fs : List (String × JVal)) (v : WriteVals) :
    (emailBlock fs v).email_from =
      (if pyTruthy (pyGet fs keyEmail) then some (jvalText (pyGet fs keyEmail))
       else v.email_from) := by
  simp only [emailBlock]
  split <;> rfl

theorem emailBlock_type_id (fs : List (String × JVal)) (v : WriteVals) :
    (emailBlock fs v).type_id = v.type_id := by
  simp only [emailBlock]
  split <;> rfl

theorem phoneBlock_name (fs : List (String × JVal)) (v : WriteVals) :
    (phoneBlock fs v).name = v.name := by
  simp only [phoneBlock]
  split <;> rfl

theorem phoneBlock_partner_name (fs : List (String × JVal)) (v : WriteVals) :
    (phoneBlock fs v).partner_name = v.partner_name := by
  simp only [phoneBlock]
  split <;> rfl

theorem phoneBlock_email (fs : List (String × JVal)) (v : WriteVals) :
    (phoneBlock fs v).email_from = v.email_from := by
  simp only [phoneBlock]
  split <;> rfl

theorem phoneBlock_type_id (fs : List (String × JVal)) (v : WriteVals) :
    (phoneBlock fs v).type_id = v.type_id := by
  simp only [phoneBlock]
  split <;> rfl

theorem linkedinBlock_name (fs : List (String × JVal)) (v : WriteVals) :
    (linkedinBlock fs v).name = v.name := by
  simp only [linkedinBlock]
  split <;> rfl

theorem linkedinBlock_partner_name (fs : List (String × JVal)) (v : WriteVals) :
    (linkedinBlock fs v).partner_name = v.partner_name := by
  simp only [linkedinBlock]
  split <;> rfl

theorem linkedinBlock_email (fs : List (String × JVal)) (v : WriteVals) :
    (linkedinBlock fs v).email_from = v.email_from := by
  simp only [linkedinBlock]
  split <;> rfl

theorem linkedinBlock_type_id (fs : List (String × JVal)) (v : WriteVals) :
    (linkedinBlock fs v).type_id = v.type_id := by
  simp only [linkedinBlock]
  split <;> rfl

theorem degreeBlock_name (ok : Bool) (env : TaxEnv) (fs : List (String × JVal))
    (v : WriteVals) : (degreeBlock ok env fs v).1.name = v.name := by
  simp only [degreeBlock]
  split
  · split <;> rfl
  · rfl

theorem degreeBlock_partner_name (ok : Bool) (env : TaxEnv) (fs : List (String × JVal))
    (v : WriteVals) : (degreeBlock ok env fs v).1.partner_name = v.partner_name := by
  simp only [degreeBlock]
  split
  · split <;> rfl
  · rfl

theorem degreeBlock_email (ok : Bool) (env : TaxEnv) (fs : List (String × JVal))
    (v : WriteVals) : (degreeBlock ok env fs v).1.email_from = v.email_from := by
  simp only [degreeBlock]
  split
  · split <;> rfl
  · rfl

theorem degreeBlock_type_id (ok : Bool) (env : TaxEnv) (fs : List (String × JVal))
    (v : WriteVals) :
    (degreeBlock ok env fs v).1.type_id =
      (if pyTruthy (pyGet fs keyDegree) then
        (match (resolveDegree ok env (jvalText (pyGet fs keyDegree))).1 with
         | some d => some d.id
         | none => v.type_id)
      else v.type_id) := by
  simp only [degreeBlock]
  split
  · split
    · next d env2 heq =>
      rw [heq]
    · next env2 heq =>
      rw [heq]
  · rfl

theorem degreeBlock_env (ok : Bool) (env : TaxEnv) (fs : List (String × JVal))
    (v : WriteVals) :
    (degreeBlock ok env fs v).2 =
      (if pyTruthy (pyGet fs keyDegree) then
        (resolveDegree ok env (jvalText (pyGet fs keyDegree))).2
      else env) := by
  simp only [degreeBlock]
  split
  · split
    · next d env2 heq =>
      rw [heq]
    · next env2 heq =>
      rw [heq]
  · rfl

/-- Projection of the accumulated write set: the display-name entry depends
only on the name field of the payload and the current display name. -/
theorem ewv_name (ok : Bool) (a : Applicant) (env : TaxEnv) (fs : List (String × JVal)) :
    (extractedWriteVals ok a env fs).1.name =
      (if pyTruthy (pyGet fs keyName) then
        (if a.name == "" || pyEndsWith a.name applicationSuffix then
          some (jvalText (pyGet fs keyName) ++ applicationSuffix)
        else none)
      else none) := by
  unfold extractedWriteVals
  rw [degreeBlock_name, linkedinBlock_name, phoneBlock_name, emailBlock_name, nameBlock_name]

/-- Projection of the accumulated write set: the partner-name entry. -/
theorem ewv_partner_name (ok : Bool) (a : Applicant) (env : TaxEnv) (fs : List (String × JVal)) :
    (extractedWriteVals ok a env fs).1.partner_name =
      (if pyTruthy (pyGet fs keyName) then some (jvalText (pyGet fs keyName)) else none) := by
  unfold extractedWriteVals
  rw [degreeBlock_partner_name, linkedinBlock_partner_name, phoneBlock_partner_name,
    emailBlock_partner_name, nameBlock_partner_name]

/-- Projection of the accumulated write set: the email entry. -/
theorem ewv_email (ok : Bool) (a : Applicant) (env : TaxEnv) (fs : List (String × JVal)) :
    (extractedWriteVals ok a env fs).1.email_from =
      (if pyTruthy (pyGet fs keyEmail) then some (jvalText (pyGet fs keyEmail)) else none) := by
  unfold extractedWriteVals
  rw [degreeBlock_email, linkedinBlock_email, phoneBlock_email, emailBlock_email,
    nameBlock_email]

/-- Projection of the accumulated write set: the degree entry comes from
`resolveDegree` when the payload carries a truthy degree. -/
theorem ewv_type_id (ok : Bool) (a : Applicant) (env : TaxEnv) (fs : List (String × JVal)) :
    (extractedWriteVals ok a env fs).1.type_id =
      (if pyTruthy (pyGet fs keyDegree) then
        ((resolveDegree ok env (jvalText (pyGet fs keyDegree))).1).map (fun d => d.id)
      else none) := by
  unfold extractedWriteVals
  rw [degreeBlock_type_id, linkedinBlock_type_id, phoneBlock_type_id, emailBlock_type_id,
    nameBlock_type_id]
  by_cases h : pyTruthy (pyGet fs keyDegree) = true
  · rw [if_pos h, if_pos h]
    cases (resolveDegree ok env (jvalText (pyGet fs keyDegree))).1 <;> rfl
  · rw [if_neg h, if_neg h]

/-- Projection of the accumulated write set: the taxonomy is only changed
through `resolveDegree`. -/
theorem ewv_env (ok : Bool) (a : Applicant) (env : TaxEnv) (fs : List (String × JVal)) :
    (extractedWriteVals ok a env fs).2 =
      (if pyTruthy (pyGet fs keyDegree) then
        (resolveDegree ok env (jvalText (pyGet fs keyDegree))).2
      else env) := by
  unfold extractedWriteVals
  rw [degreeBlock_env]

def noLikeWildcardChar (c : Char) : Bool :=
  !(c == pctChar || c == underscoreChar || c == backslashChar)

/-- Predicate: the string contains no LIKE wildcard or escape character, so
an ILIKE lookup with it degenerates to case-insensitive equality. -/
def noLikeWildcard (s : String) : Bool := s.toList.all noLikeWildcardChar

/-- Helper: tokenizing a wildcard-free pattern yields its characters as
literal tokens. -/
theorem likeTokens_literal : ∀ (p : List Char),
    p.all noLikeWildcardChar = true → likeTokens p = p.map LikeTok.lit
  | [], _ => rfl
  | [c], h => by
    have hsplit := h
    rw [List.all_cons, Bool.and_eq_true] at hsplit
    have h123 : (c == pctChar) = false ∧ (c == underscoreChar) = false ∧
        (c == backslashChar) = false := by
      have := hsplit.1
      unfold noLikeWildcardChar at this
      simp only [Bool.not_eq_eq_eq_not, Bool.not_true, Bool.or_eq_false_iff] at this
      exact ⟨this.1.1, this.1.2, this.2⟩
    show (if c == pctChar then [LikeTok.any]
      else if c == underscoreChar then [LikeTok.one]
      else if c == backslashChar then [LikeTok.bad]
      else [LikeTok.lit c]) = [LikeTok.lit c]
    rw [h123.1, h123.2.1, h123.2.2]
    rfl
  | c :: c2 :: cs, h => by
    have hsplit := h
    rw [List.all_cons, Bool.and_eq_true] at hsplit
    have hrest : (c2 :: cs).all noLikeWildcardChar = true := hsplit.2
    have h123 : (c == pctChar) = false ∧ (c == underscoreChar) = false ∧
        (c == backslashChar) = false := by
      have := hsplit.1
      unfold noLikeWildcardChar at this
      simp only [Bool.not_eq_eq_eq_not, Bool.not_true, Bool.or_eq_false_iff] at this
      exact ⟨this.1.1, this.1.2, this.2⟩
    show (if c == pctChar then LikeTok.any :: likeTokens (c2 :: cs)
      else if c == underscoreChar then LikeTok.one :: likeTokens (c2 :: cs)
      else if c == backslashChar then LikeTok.lit c2 :: likeTokens cs
      else LikeTok.lit c :: likeTokens (c2 :: cs)) = (c :: c2 :: cs).map LikeTok.lit
    rw [h123.1, h123.2.1, h123.2.2]
    simp only [if_false, Bool.false_eq_true, List.map_cons]
    rw [likeTokens_literal (c2 :: cs) hrest]
    rfl

/-- Helper: with enough fuel, a literal-token pattern matches exactly
itself. -/
theorem likeRunF_lit : ∀ (n : Nat) (p s : List Char), p.length + s.length < n →
    (likeRunF n (p.map LikeTok.lit) s = true ↔ p = s)
  | 0, p, s, h => absurd h (by omega)
  | n + 1, [], s, _ => by
    show s.isEmpty = true ↔ [] = s
    rw [List.isEmpty_iff]
    exact eq_comm
  | n + 1, c :: p2, [], _ => by
    show false = true ↔ c :: p2 = []
    simp
  | n + 1, c :: p2, d :: s2, h => by
    show (c == d && likeRunF n (p2.map LikeTok.lit) s2) = true ↔ c :: p2 = d :: s2
    simp only [Bool.and_eq_true, beq_iff_eq, List.cons.injEq]
    exact and_congr_right (fun _ => likeRunF_lit n p2 s2 (by simp at h; omega))

/-- Helper: a LIKE pattern without wildcards matches exactly itself. -/
theorem likeMatch_literal (p s : List Char) (hp : p.all noLikeWildcardChar = true) :
    likeMatch p s = true ↔ p = s := by
  unfold likeMatch
  rw [likeTokens_literal p hp]
  exact likeRunF_lit _ p s (by omega)

/-- Helper: `find?` only depends on the predicate pointwise. -/
theorem find?_pred_congr {α : Type} (p q : α → Bool) (h : ∀ a, p a = q a) :
    ∀ l : List α, l.find? p = l.find? q
  | [] => rfl
  | a :: l => by
    rw [List.find?_cons, List.find?_cons, h a, find?_pred_congr p q h l]

/-- Helper: an ILIKE lookup with a wildcard-free pattern is exactly
case-insensitive string equality. -/
theorem ilikeMatch_literal (pat nm : String) (h : noLikeWildcard (pyLowerStr pat) = true) :
    ilikeMatch pat nm = (pyLowerStr pat == pyLowerStr nm) := by
  unfold ilikeMatch
  rw [Bool.eq_iff_iff]
  rw [likeMatch_literal (pyLowerStr pat).toList (pyLowerStr nm).toList h]
  rw [beq_iff_eq]
  constructor
  · intro hl
    apply String.ext
    exact hl
  · intro hs
    rw [hs]

/-- Helper: the degree lookup with a wildcard-free pattern is a
case-insensitive exact-name lookup. -/
theorem findDegree_literal (env : TaxEnv) (pat : String)
    (h : noLikeWildcard (pyLowerStr pat) = true) :
    findDegree env pat =
      env.degrees.find? (fun d => pyLowerStr pat == pyLowerStr d.name) := by
  unfold findDegree
  exact find?_pred_congr (fun d => ilikeMatch pat d.name)
    (fun d => pyLowerStr pat == pyLowerStr d.name)
    (fun d => ilikeMatch_literal pat d.name h) env.degrees

/- ---------------------------------------------------------------------
   Claim C8: display-name replacement policy
   --------------------------------------------------------------------- -/

/-- C8: when the payload carries a (nonempty) name, the writer sets the
display name to the new name followed by the convention suffix exactly when
the current display name is empty or itself ends in the convention suffix
(i.e. has the shape previous-name plus suffix); in every other case the
display-name entry is absent from the write set and applying the write set
leaves the user-entered display name unchanged. The partner name is always
written. -/
theorem name_write_policy (degreeCreateOk : Bool) (a : Applicant) (env : TaxEnv)
    (fs : List (String × JVal)) (n : String)
    (hname : pyGet fs keyName = JVal.jstr n) (hn : n ≠ "") :
    ((extractedWriteVals degreeCreateOk a env fs).1.name = some (n ++ applicationSuffix) ↔
        (a.name = "" ∨ ∃ p, a.name.toList = p ++ applicationSuffix.toList))
  ∧ ((extractedWriteVals degreeCreateOk a env fs).1.name = some (n ++ applicationSuffix) ∨
        (extractedWriteVals degreeCreateOk a env fs).1.name = none)
  ∧ (extractedWriteVals degreeCreateOk a env fs).1.partner_name = some n
  ∧ (∀ v : WriteVals, v.name = none → (applyWriteVals a v).name = a.name) := by
  have htruthy : pyTruthy (pyGet fs keyName) = true := by
    rw [hname]; simpa [pyTruthy] using hn
  have htext : jvalText (pyGet fs keyName) = n := by rw [hname]; rfl
  have hcond : (a.name == "" || pyEndsWith a.name applicationSuffix) = true ↔
      (a.name = "" ∨ ∃ p, a.name.toList = p ++ applicationSuffix.toList) := by
    rw [Bool.or_eq_true, beq_iff_eq]
    apply or_congr Iff.rfl
    unfold pyEndsWith
    rw [List.isSuffixOf_iff_suffix]
    unfold List.IsSuffix
    constructor
    · rintro ⟨t, ht⟩
      exact ⟨t, ht.symm⟩
    · rintro ⟨t, ht⟩
      exact ⟨t, ht.symm⟩
  refine ⟨?_, ?_, ?_, ?_⟩
  · rw [ewv_name, htruthy, htext]
    simp only [if_true]
    by_cases hc : (a.name == "" || pyEndsWith a.name applicationSuffix) = true
    · rw [if_pos hc]
      exact ⟨fun _ => hcond.mp hc, fun _ => rfl⟩
    · rw [if_neg hc]
      constructor
      · intro hcontra
        exact absurd hcontra (by simp)
      · intro hcontra
        exact absurd (hcond.mpr hcontra) hc
  · rw [ewv_name, htruthy, htext]
    simp only [if_true]
    by_cases hc : (a.name == "" || pyEndsWith a.name applicationSuffix) = true
    · rw [if_pos hc]; exact Or.inl rfl
    · rw [if_neg hc]; exact Or.inr rfl
  · rw [ewv_partner_name, htruthy, htext]
    simp
  · intro v hv
    unfold applyWriteVals
    rw [hv]
    rfl

/-- Witness for C8: an applicant with an empty display name gets the
convention name; the convention-shaped condition holds trivially. -/
theorem name_write_policy_witness :
    (extractedWriteVals true sampleApplicant sampleEnv
        [(keyName, JVal.jstr ("Ada"))]).1.name = some ("Ada" ++ applicationSuffix)
  ∧ (extractedWriteVals true sampleApplicant sampleEnv
        [(keyName, JVal.jstr ("Ada"))]).1.partner_name = some ("Ada") := by
  have h := name_write_policy true sampleApplicant sampleEnv
    [(keyName, JVal.jstr ("Ada"))] "Ada" rfl (by decide)
  exact ⟨h.1.mpr (Or.inl rfl), h.2.2.1⟩

/- ---------------------------------------------------------------------
   Claim C9: degree resolution and swallowed creation failure
   --------------------------------------------------------------------- -/

/-- C9: the degree named by a payload is resolved by a case-insensitive
lookup (exact-name equality for wildcard-free names) and created with just
that name when absent; when the creation fails the failure is swallowed:
no degree reference enters the write set, the taxonomy is untouched, and
the write of the other simple fields still completes. -/
theorem degree_resolution_swallowed (env : TaxEnv) (dname : String) :
    (∀ d, findDegree env dname = some d →
        resolveDegree true env dname = (some d, env) ∧
        resolveDegree false env dname = (some d, env))
  ∧ (findDegree env dname = none →
        resolveDegree true env dname =
          (some (createDegree env dname).1, (createDegree env dname).2) ∧
        (createDegree env dname).1.name = dname)
  ∧ (findDegree env dname = none → resolveDegree false env dname = (none, env))
  ∧ (noLikeWildcard (pyLowerStr dname) = true →
        findDegree env dname =
          env.degrees.find? (fun d => pyLowerStr dname == pyLowerStr d.name))
  ∧ (∀ (ok : Bool) (w : World) (fs : List (String × JVal)),
        ∃ w2, writeExtractedData ok w (JVal.jobj fs) = Except.ok w2)
  ∧ (∀ (a : Applicant) (fs : List (String × JVal)),
        pyGet fs keyDegree = JVal.jstr dname →
        findDegree env dname = none →
        (extractedWriteVals false a env fs).1.type_id = none ∧
        (extractedWriteVals false a env fs).2 = env ∧
        (∀ e, pyGet fs keyEmail = JVal.jstr e → e ≠ "" →
          (extractedWriteVals false a env fs).1.email_from = some e)) := by
  refine ⟨?_, ?_, ?_, ?_, ?_, ?_⟩
  · intro d h
    constructor <;> (unfold resolveDegree; rw [h])
  · intro h
    constructor
    · unfold resolveDegree
      rw [h]
      rfl
    · rfl
  · intro h
    unfold resolveDegree
    rw [h]
    rfl
  · exact findDegree_literal env dname
  · intro ok w fs
    by_cases h : pyTruthy (JVal.jobj fs) = true
    · refine ⟨⟨applyWriteVals w.applicant (extractedWriteVals ok w.applicant w.env fs).1,
        (extractedWriteVals ok w.applicant w.env fs).2⟩, ?_⟩
      unfold writeExtractedData
      rw [h]
      rfl
    · refine ⟨w, ?_⟩
      unfold writeExtractedData
      rw [Bool.eq_false_iff.mpr h]
      rfl
  · intro a fs hdeg hmiss
    have hres : resolveDegree false env dname = (none, env) := by
      unfold resolveDegree
      rw [hmiss]
      rfl
    refine ⟨?_, ?_, ?_⟩
    · rw [ewv_type_id]
      by_cases h : pyTruthy (pyGet fs keyDegree) = true
      · rw [if_pos h, hdeg]
        show (resolveDegree false env dname).1.map _ = none
        rw [hres]
        rfl
      · rw [if_neg h]
    · rw [ewv_env]
      by_cases h : pyTruthy (pyGet fs keyDegree) = true
      · rw [if_pos h, hdeg]
        show (resolveDegree false env dname).2 = env
        rw [hres]
      · rw [if_neg h]
    · intro e he hne
      rw [ewv_email, he]
      have ht : pyTruthy (JVal.jstr e) = true := by
        simpa [pyTruthy] using hne
      rw [ht]
      rfl

/-- Witness for C9: a missing degree whose creation fails leaves the write
set without a degree but with the email still written. -/
theorem degree_resolution_swallowed_witness :
    resolveDegree false sampleEnv ("PhD") = (none, sampleEnv)
  ∧ (extractedWriteVals false sampleApplicant sampleEnv
       [(keyDegree, JVal.jstr ("PhD")), (keyEmail, JVal.jstr ("a@b.c"))]).1.type_id = none
  ∧ (extractedWriteVals false sampleApplicant sampleEnv
       [(keyDegree, JVal.jstr ("PhD")), (keyEmail, JVal.jstr ("a@b.c"))]).1.email_from
       = some ("a@b.c") := by
  have h := degree_resolution_swallowed sampleEnv ("PhD")
  have h6 := h.2.2.2.2.2 sampleApplicant
    [(keyDegree, JVal.jstr ("PhD")), (keyEmail, JVal.jstr ("a@b.c"))] rfl (by decide)
  exact ⟨h.2.2.1 (by decide), h6.1, h6.2.2 ("a@b.c") rfl (by decide)⟩

/- ---------------------------------------------------------------------
   Claim C6: skill level resolution order
   --------------------------------------------------------------------- -/

/-- Helper: when uncached level resolution finds nothing, the taxonomy is
unchanged (only the parse-failed, name-miss branch returns `none`). -/
theorem resolveLevelNoCache_none (env : TaxEnv) (label : String)
    (h : (resolveLevelNoCache env label).1 = none) :
    resolveLevelNoCache env label = (none, env) := by
  unfold resolveLevelNoCache at h ⊢
  cases hp : parseLevelLabel label with
  | some pr =>
    obtain ⟨g1, prog⟩ := pr
    cases hpair : findLevelPair env (pyStrip g1) prog with
    | some l => simp [hp, hpair] at h
    | none =>
      cases hname : findLevelByName env label with
      | some l => simp [hp, hpair, hname] at h
      | none => simp [hp, hpair, hname] at h
  | none =>
    cases hname : findLevelByName env label with
    | some l => simp [hp, hname] at h
    | none => simp [hname]

/-- C6: for every skill-level label, resolution parses the label as a name
with a parenthesised progress percentage; on parse success it looks up the
(clean name, progress) pair, falling back to a lookup of the whole label by
name, and creates a level with the parsed name and progress when both miss;
if the label does not parse, only the name lookup is tried; and when
nothing resolves (or the value is falsy), the shared per-run default level
is used. -/
theorem level_resolution_order (env : TaxEnv) (label : String) :
    (∀ g1 prog, parseLevelLabel label = some (g1, prog) →
      ((∀ l, findLevelPair env (pyStrip g1) prog = some l →
          resolveLevelNoCache env label = (some l, env))
       ∧ (findLevelPair env (pyStrip g1) prog = none →
          ∀ l, findLevelByName env label = some l →
            resolveLevelNoCache env label = (some l, env))
       ∧ (findLevelPair env (pyStrip g1) prog = none →
          findLevelByName env label = none →
          resolveLevelNoCache env label =
            (some (createSkillLevel env (pyStrip g1) prog).1,
             (createSkillLevel env (pyStrip g1) prog).2) ∧
          (createSkillLevel env (pyStrip g1) prog).1.name = pyStrip g1 ∧
          (createSkillLevel env (pyStrip g1) prog).1.level_progress = prog)))
  ∧ (parseLevelLabel label = none →
      ((∀ l, findLevelByName env label = some l →
          resolveLevelNoCache env label = (some l, env))
       ∧ (findLevelByName env label = none →
          resolveLevelNoCache env label = (none, env))))
  ∧ (∀ st : PState, label ≠ "" →
      cacheLookup st.level_cache (pyLowerStr label) = none →
      st.default_level = none →
      (resolveLevelNoCache st.env label).1 = none →
      resolveLevelStep st (JVal.jstr label) =
        Except.ok ((getOrCreateDefaultSkillLevel st.env).1,
          { st with env := (getOrCreateDefaultSkillLevel st.env).2,
                    default_level := some (getOrCreateDefaultSkillLevel st.env).1 })) := by
  refine ⟨?_, ?_, ?_⟩
  · intro g1 prog hp
    refine ⟨?_, ?_, ?_⟩
    · intro l hpair
      unfold resolveLevelNoCache
      rw [hp]
      simp [hpair]
    · intro hpair l hname
      unfold resolveLevelNoCache
      rw [hp]
      simp [hpair, hname]
    · intro hpair hname
      refine ⟨?_, rfl, rfl⟩
      unfold resolveLevelNoCache
      rw [hp]
      simp [hpair, hname]
  · intro hp
    refine ⟨?_, ?_⟩
    · intro l hname
      unfold resolveLevelNoCache
      rw [hp]
      simp [hname]
    · intro hname
      unfold resolveLevelNoCache
      rw [hp]
      simp [hname]
  · intro st hlabel hcache hdef hres
    have henv := resolveLevelNoCache_none st.env label hres
    unfold resolveLevelStep
    have htr : pyTruthy (JVal.jstr label) = true := by
      simpa [pyTruthy] using hlabel
    rw [htr]
    simp only [if_true]
    rw [hcache, henv]
    unfold applyDefaultLevel
    rw [hdef]

/-- Witness for C6 (spec Scenario D): label B2 with 75 percent on a
taxonomy with no level named B2 parses, misses both lookups, and creates a
fresh level named B2 with progress 75. -/
theorem level_resolution_order_witness :
    resolveLevelNoCache sampleEnv ("B2 (75%)") =
      (some (createSkillLevel sampleEnv ("B2") 75).1,
       (createSkillLevel sampleEnv ("B2") 75).2)
  ∧ (createSkillLevel sampleEnv ("B2") 75).1.name = "B2"
  ∧ (createSkillLevel sampleEnv ("B2") 75).1.level_progress = 75 :=
  ((level_resolution_order sampleEnv ("B2 (75%)")).1 ("B2") 75 (by decide)).2.2
    (by decide) (by decide)

/- ---------------------------------------------------------------------
   Claim C5: at most one link per (record, skill) pair; idempotent linking
   --------------------------------------------------------------------- -/

/-- Two links clash when they concern the same applicant and skill. -/
def linkKeyClash (l1 l2 : ApplicantSkill) : Prop :=
  l1.applicant_id = l2.applicant_id ∧ l1.skill_id = l2.skill_id

/-- No two entries of the list link the same (applicant, skill) pair. -/
def PairwiseLinks (ls : List ApplicantSkill) : Prop :=
  List.Pairwise (fun l1 l2 => ¬ linkKeyClash l1 l2) ls

/-- Invariant: at most one `hr.applicant.skill` row per (applicant, skill). -/
def LinkPairUnique (env : TaxEnv) : Prop := PairwiseLinks env.applicant_skills

theorem links_createSkillType (env : TaxEnv) (nm : String) :
    (createSkillType env nm).2.applicant_skills = env.applicant_skills := rfl

theorem links_createSkillLevel (env : TaxEnv) (nm : String) (p : Nat) :
    (createSkillLevel env nm p).2.applicant_skills = env.applicant_skills := rfl

theorem links_createSkill (env : TaxEnv) (nm : String) (t : Nat) :
    (createSkill env nm t).2.applicant_skills = env.applicant_skills := rfl

theorem links_addLevelToType (env : TaxEnv) (t l : Nat) :
    (addLevelToType env t l).applicant_skills = env.applicant_skills := rfl

theorem links_setSkillTypeId (env : TaxEnv) (s t : Nat) :
    (setSkillTypeId env s t).applicant_skills = env.applicant_skills := rfl

theorem links_getOrCreateDefault (env : TaxEnv) :
    (getOrCreateDefaultSkillLevel env).2.applicant_skills = env.applicant_skills := by
  unfold getOrCreateDefaultSkillLevel
  repeat' split
  all_goals rfl

theorem links_resolveLevelNoCache (env : TaxEnv) (label : String) :
    (resolveLevelNoCache env label).2.applicant_skills = env.applicant_skills := by
  unfold resolveLevelNoCache
  repeat' split
  all_goals rfl

theorem links_applyDefaultLevel (st : PState) :
    (applyDefaultLevel st).2.env.applicant_skills = st.env.applicant_skills := by
  unfold applyDefaultLevel
  split
  · rfl
  · simp [links_getOrCreateDefault]

theorem resolveTypeStep_links (st : PState) (tv : JVal) (tp : SkillType) (st2 : PState)
    (h : resolveTypeStep st tv = Except.ok (tp, st2)) :
    st2.env.applicant_skills = st.env.applicant_skills := by
  cases tv with
  | jstr s =>
    unfold resolveTypeStep at h
    cases hc : cacheLookup st.type_cache (pyLowerStr s) with
    | some t =>
      simp [hc] at h
      obtain ⟨-, h2⟩ := h
      subst h2
      rfl
    | none =>
      cases hf : findSkillTypeByName st.env s with
      | some t =>
        simp [hc, hf] at h
        obtain ⟨-, h2⟩ := h
        subst h2
        rfl
      | none =>
        simp [hc, hf] at h
        obtain ⟨-, h2⟩ := h
        subst h2
        exact links_createSkillType st.env s
  | jnull => unfold resolveTypeStep at h; simp at h
  | jbool b => unfold resolveTypeStep at h; simp at h
  | jnum n => unfold resolveTypeStep at h; simp at h
  | jarr items => unfold resolveTypeStep at h; simp at h
  | jobj fields => unfold resolveTypeStep at h; simp at h

theorem resolveLevelStep_links (st : PState) (lv : JVal) (lvl : SkillLevel) (st2 : PState)
    (h : resolveLevelStep st lv = Except.ok (lvl, st2)) :
    st2.env.applicant_skills = st.env.applicant_skills := by
  unfold resolveLevelStep at h
  by_cases ht : pyTruthy lv = true
  · rw [ht] at h
    simp only [if_true] at h
    cases lv with
    | jstr s =>
      cases hc : cacheLookup st.level_cache (pyLowerStr s) with
      | some l =>
        simp only [hc] at h
        injection h with h3
        injection h3 with h4 h5
        subst h5
        rfl
      | none =>
        rcases hr : resolveLevelNoCache st.env s with ⟨resOpt, env2⟩
        have henv2 : env2.applicant_skills = st.env.applicant_skills := by
          have hl := links_resolveLevelNoCache st.env s
          rw [hr] at hl
          exact hl
        cases resOpt with
        | some l =>
          simp only [hc, hr] at h
          injection h with h3
          injection h3 with h4 h5
          subst h5
          exact henv2
        | none =>
          simp only [hc, hr] at h
          injection h with h3
          have h2 : st2 = (applyDefaultLevel { st with env := env2 }).2 := by
            rw [h3]
          rw [h2, links_applyDefaultLevel]
          exact henv2
    | jnull => exact Except.noConfusion h
    | jbool b => exact Except.noConfusion h
    | jnum n => exact Except.noConfusion h
    | jarr items => exact Except.noConfusion h
    | jobj fields => exact Except.noConfusion h
  · rw [Bool.eq_false_iff.mpr ht] at h
    injection h with h3
    have h2 : st2 = (applyDefaultLevel st).2 := by
      rw [h3]
    rw [h2, links_applyDefaultLevel]

theorem resolveSkillStep_links (st : PState) (sv : JVal) (tid : Nat) (sk : Skill)
    (st2 : PState) (h : resolveSkillStep st sv tid = Except.ok (sk, st2)) :
    st2.env.applicant_skills = st.env.applicant_skills := by
  cases sv with
  | jstr s =>
    unfold resolveSkillStep at h
    cases hc : cacheLookup st.skill_cache (pyLowerStr s) with
    | some t =>
      simp only [hc] at h
      injection h with h3
      injection h3 with h4 h5
      subst h5
      rfl
    | none =>
      cases hf : findSkillByName st.env s with
      | none =>
        simp only [hc, hf] at h
        injection h with h3
        injection h3 with h4 h5
        subst h5
        exact links_createSkill st.env s tid
      | some sk0 =>
        simp only [hc, hf] at h
        by_cases hne : (sk0.skill_type_id != tid) = true
        · rw [hne] at h
          injection h with h3
          injection h3 with h4 h5
          subst h5
          exact links_setSkillTypeId st.env sk0.id tid
        · rw [Bool.eq_false_iff.mpr hne] at h
          injection h with h3
          injection h3 with h4 h5
          subst h5
          rfl
  | jnull => exact Except.noConfusion h
  | jbool b => exact Except.noConfusion h
  | jnum n => exact Except.noConfusion h
  | jarr items => exact Except.noConfusion h
  | jobj fields => exact Except.noConfusion h

/-- Helper: creating a link only when the pair search misses preserves the
per-pair uniqueness invariant. -/
theorem linkStep_preserves (aid : Nat) (env : TaxEnv) (sid lid tid : Nat)
    (h : LinkPairUnique env) : LinkPairUnique (linkStep aid env sid lid tid) := by
  unfold linkStep
  cases hf : findLink env aid sid with
  | some l => exact h
  | none =>
    unfold LinkPairUnique PairwiseLinks at h ⊢
    rw [List.pairwise_append]
    refine ⟨h, List.pairwise_singleton _ _, ?_⟩
    intro a ha b hb
    have hb2 : b = ⟨aid, sid, lid, tid⟩ := by simpa using hb
    unfold findLink at hf
    rw [List.find?_eq_none] at hf
    have hnot := hf a ha
    simp only [Bool.and_eq_true, beq_iff_eq, not_and] at hnot
    intro hclash
    unfold linkKeyClash at hclash
    rw [hb2] at hclash
    exact hnot hclash.1 hclash.2

/-- Helper: one skill-entry iteration preserves the per-pair invariant. -/
theorem processSkillItem_preserves (aid : Nat) (st : PState) (item : JVal) (st2 : PState)
    (h : processSkillItem aid st item = Except.ok st2) (hinv : LinkPairUnique st.env) :
    LinkPairUnique st2.env := by
  cases item with
  | jobj fs =>
    simp only [processSkillItem] at h
    by_cases hskill : pyTruthy (pyGet fs keySkill) = true
    · rw [hskill] at h
      simp only [Bool.not_true, Bool.false_eq_true, if_false] at h
      cases h1 : resolveTypeStep st
          (if pyTruthy (pyGet fs keyType) then pyGet fs keyType
           else JVal.jstr generalTypeName) with
      | error e => simp [h1] at h
      | ok p1 =>
        obtain ⟨tp, st1⟩ := p1
        simp only [h1] at h
        cases h2 : resolveLevelStep st1 (pyGet fs keyLevel) with
        | error e => simp [h2] at h
        | ok p2 =>
          obtain ⟨lvl, st2a⟩ := p2
          simp only [h2] at h
          have hinv1 : LinkPairUnique st1.env := by
            unfold LinkPairUnique PairwiseLinks at hinv ⊢
            rw [resolveTypeStep_links st _ tp st1 h1]
            exact hinv
          have hinv2 : LinkPairUnique st2a.env := by
            unfold LinkPairUnique PairwiseLinks at hinv1 ⊢
            rw [resolveLevelStep_links st1 _ lvl st2a h2]
            exact hinv1
          by_cases h3 : ((typeLevelIds st2a.env tp.id).contains lvl.id) = true
          · simp only [h3, if_true] at h
            cases h4 : resolveSkillStep st2a (pyGet fs keySkill) tp.id with
            | error e => simp [h4] at h
            | ok p4 =>
              obtain ⟨sk, st4⟩ := p4
              simp only [h4] at h
              injection h with h5
              subst h5
              have hinv4 : LinkPairUnique st4.env := by
                unfold LinkPairUnique PairwiseLinks at hinv2 ⊢
                rw [resolveSkillStep_links st2a _ tp.id sk st4 h4]
                exact hinv2
              exact linkStep_preserves aid st4.env sk.id lvl.id tp.id hinv4
          · simp only [Bool.eq_false_iff.mpr h3, Bool.false_eq_true, if_false] at h
            have hinv3 : LinkPairUnique (addLevelToType st2a.env tp.id lvl.id) := by
              unfold LinkPairUnique PairwiseLinks at hinv2 ⊢
              rw [links_addLevelToType]
              exact hinv2
            cases h4 : resolveSkillStep { st2a with env := addLevelToType st2a.env tp.id lvl.id }
                (pyGet fs keySkill) tp.id with
            | error e => simp [h4] at h
            | ok p4 =>
              obtain ⟨sk, st4⟩ := p4
              simp only [h4] at h
              injection h with h5
              subst h5
              have hinv4 : LinkPairUnique st4.env := by
                unfold LinkPairUnique PairwiseLinks at hinv3 ⊢
                rw [resolveSkillStep_links _ _ tp.id sk st4 h4]
                exact hinv3
              exact linkStep_preserves aid st4.env sk.id lvl.id tp.id hinv4
    · rw [Bool.eq_false_iff.mpr hskill] at h
      injection h with h5
      subst h5
      exact hinv
  | jnull => injection h with h5; subst h5; exact hinv
  | jbool b => injection h with h5; subst h5; exact hinv
  | jnum n => injection h with h5; subst h5; exact hinv
  | jstr s => injection h with h5; subst h5; exact hinv
  | jarr items => injection h with h5; subst h5; exact hinv

/-- Helper: the skills loop preserves the per-pair invariant. -/
theorem processSkillsGo_preserves : ∀ (aid : Nat) (st : PState) (items : List JVal)
    (env2 : TaxEnv), processSkillsGo aid st items = Except.ok env2 →
    LinkPairUnique st.env → PairwiseLinks env2.applicant_skills
  | aid, st, [], env2, h, hi => by
    unfold processSkillsGo at h
    simp at h
    rw [← h]
    exact hi
  | aid, st, i :: rest, env2, h, hi => by
    unfold processSkillsGo at h
    cases h1 : processSkillItem aid st i with
    | error e => rw [h1] at h; simp at h
    | ok st1 =>
      rw [h1] at h
      exact processSkillsGo_preserves aid st1 rest env2 h
        (processSkillItem_preserves aid st i st1 h1 hi)

/-- Helper: a full skills batch preserves the per-pair invariant. -/
theorem processSkills_preserves (aid : Nat) (env : TaxEnv) (v : JVal) (env2 : TaxEnv)
    (h : processSkills aid env v = Except.ok env2) (hinv : LinkPairUnique env) :
    LinkPairUnique env2 := by
  unfold processSkills at h
  by_cases ht : pyTruthy v = true
  · rw [ht] at h
    simp only [Bool.not_true, Bool.false_eq_true, if_false] at h
    cases v with
    | jarr items =>
      exact processSkillsGo_preserves aid _ items env2 h hinv
    | jnull => simp at h; rw [← h]; exact hinv
    | jbool b => simp at h; rw [← h]; exact hinv
    | jnum n => simp at h; rw [← h]; exact hinv
    | jstr s => simp at h; rw [← h]; exact hinv
    | jobj fields => simp at h; rw [← h]; exact hinv
  · rw [Bool.eq_false_iff.mpr ht] at h
    simp only [Bool.not_false, if_true] at h
    simp at h
    rw [← h]
    exact hinv

/-- Helper: the savepoint-wrapped skills step preserves the invariant. -/
theorem runSkillsStep_preserves (aid : Nat) (env : TaxEnv) (v : JVal)
    (hinv : LinkPairUnique env) : LinkPairUnique (runSkillsStep aid env v) := by
  unfold runSkillsStep
  cases h : processSkills aid env v with
  | ok env2 => exact processSkills_preserves aid env v env2 h hinv
  | error e => exact hinv

/-- C5: starting from a taxonomy with at most one link per
(record, skill) pair, running the skills reconciler — once or twice with
the same list — keeps at most one link per pair: re-running never creates a
duplicate row, and linking a skill that already has a link for the record
leaves the link table untouched. -/
theorem skills_link_idempotent (aid : Nat) (v : JVal) (env : TaxEnv)
    (h : LinkPairUnique env) :
    LinkPairUnique (runSkillsStep aid env v)
  ∧ LinkPairUnique (runSkillsStep aid (runSkillsStep aid env v) v)
  ∧ (∀ (env2 : TaxEnv) (sid lid tid : Nat),
       (∃ lnk ∈ env2.applicant_skills, lnk.applicant_id = aid ∧ lnk.skill_id = sid) →
       (linkStep aid env2 sid lid tid).applicant_skills = env2.applicant_skills) := by
  refine ⟨runSkillsStep_preserves aid env v h,
    runSkillsStep_preserves aid _ v (runSkillsStep_preserves aid env v h), ?_⟩
  intro env2 sid lid tid hex
  unfold linkStep
  cases hf : findLink env2 aid sid with
  | some l => rfl
  | none =>
    exfalso
    obtain ⟨lnk, hmem, h1, h2⟩ := hex
    unfold findLink at hf
    rw [List.find?_eq_none] at hf
    have := hf lnk hmem
    simp only [Bool.and_eq_true, beq_iff_eq, not_and] at this
    exact this h1 h2

/-- Witness for C5: starting from the empty taxonomy and a one-entry skill
list, both the single and the repeated run keep the link table duplicate
free. -/
theorem skills_link_idempotent_witness :
    LinkPairUnique (runSkillsStep 7 (runSkillsStep 7 sampleEnv
      (JVal.jarr [JVal.jobj [(keyType, JVal.jstr ("Programming Languages")),
        (keySkill, JVal.jstr ("Python")), (keyLevel, JVal.jstr ("Advanced (80%)"))]]))
      (JVal.jarr [JVal.jobj [(keyType, JVal.jstr ("Programming Languages")),
        (keySkill, JVal.jstr ("Python")), (keyLevel, JVal.jstr ("Advanced (80%)"))]])) :=
  (skills_link_idempotent 7
    (JVal.jarr [JVal.jobj [(keyType, JVal.jstr ("Programming Languages")),
      (keySkill, JVal.jstr ("Python")), (keyLevel, JVal.jstr ("Advanced (80%)"))]])
    sampleEnv (by simp [LinkPairUnique, PairwiseLinks, sampleEnv])).2.1

/- ---------------------------------------------------------------------
   Claim C2: core-step failure rolls back and persists an isolated error
   --------------------------------------------------------------------- -/

/-- C2: whenever the core step fails (configuration, provider call, parse
or field write), the job result equals the committed pre-job state with
only the extraction state set to error and the status set to the failure
reason — every data write of the step is rolled back and the error is
written through the isolated fresh-cursor path on top of the committed
state; when the failure is a parse error, the raw offending response text
is contained in the persisted status. -/
theorem core_failure_isolated_error (ctx : GeminiCtx) (decode : String → Option JVal)
    (w : World) (e : String) (h : coreStep ctx decode w = Except.error e) :
    runGeminiExtraction ctx decode w =
      { w with applicant := { w.applicant with
          gemini_extract_state := ExtractState.error,
          gemini_extract_status := errorMsgHead ++ e } }
  ∧ ∀ raw, e = parseFailHead ++ raw →
      raw.toList <:+:
        (runGeminiExtraction ctx decode w).applicant.gemini_extract_status.toList := by
  have h1 : runGeminiExtraction ctx decode w =
      { w with applicant := { w.applicant with
          gemini_extract_state := ExtractState.error,
          gemini_extract_status := errorMsgHead ++ e } } := by
    unfold runGeminiExtraction
    rw [h]
  refine ⟨h1, ?_⟩
  intro raw hraw
  rw [h1]
  show raw.toList <:+: (errorMsgHead ++ e).data
  rw [hraw]
  refine ⟨(errorMsgHead ++ parseFailHead).data, [], ?_⟩
  have : (errorMsgHead ++ (parseFailHead ++ raw)).data =
      (errorMsgHead ++ parseFailHead).data ++ raw.data := by
    cases errorMsgHead
    cases parseFailHead
    cases raw
    simp [String.data_append]
  rw [this]
  simp

/-- Sample context for the parse-failure scenario: credentials set, the
provider answers with text containing an opening brace but no closing
brace (spec Scenario B), and the decoder never succeeds. -/
def ctxParseFail : GeminiCtx :=
  { gemini_api_key := "k", gemini_model := "", skillsModuleInstalled := true,
    providerResponse := Except.ok ("Here is the data: \x7b stuff"), degreeCreateOk := true }

def decNone : String → Option JVal := fun _ => none

/-- Witness for C2 (spec Scenario B): the unterminated-brace response fails
parsing; the record ends in the error state with the raw text inside the
status, and all other fields keep their committed values. -/
theorem core_failure_isolated_error_witness :
    runGeminiExtraction ctxParseFail decNone sampleWorld =
      { sampleWorld with applicant := { sampleApplicant with
          gemini_extract_state := ExtractState.error,
          gemini_extract_status :=
            errorMsgHead ++ (parseFailHead ++ "Here is the data: \x7b stuff") } }
  ∧ ("Here is the data: \x7b stuff").toList <:+:
      (runGeminiExtraction ctxParseFail decNone sampleWorld).applicant.gemini_extract_status.toList := by
  have h := core_failure_isolated_error ctxParseFail decNone sampleWorld
    (parseFailHead ++ "Here is the data: \x7b stuff") rfl
  exact ⟨h.1, h.2 ("Here is the data: \x7b stuff") rfl⟩

/- ---------------------------------------------------------------------
   Claim C4: skills failure keeps core data, job still reaches done
   --------------------------------------------------------------------- -/

/-- C4: when the core step succeeds and the skills step fails anywhere,
only the skills writes are rolled back: the job result keeps the record
exactly as the core step wrote it (name, email, phone, linkedin, degree),
the taxonomy reverts to its post-core state, the job transitions to done,
and the status notes the partial success with the skills failure reason. -/
theorem skills_failure_keeps_core_data (ctx : GeminiCtx) (decode : String → Option JVal)
    (w w1 : World) (sk : JVal) (es : String)
    (hcore : coreStep ctx decode w = Except.ok (w1, some sk))
    (hskills : processSkills w1.applicant.id w1.env sk = Except.error es) :
    runGeminiExtraction ctx decode w =
      { applicant := { w1.applicant with
          gemini_extract_state := ExtractState.done,
          gemini_extract_status := skillsFailMsgHead ++ es },
        env := w1.env }
  ∧ (runGeminiExtraction ctx decode w).applicant.partner_name = w1.applicant.partner_name
  ∧ (runGeminiExtraction ctx decode w).applicant.email_from = w1.applicant.email_from
  ∧ (runGeminiExtraction ctx decode w).applicant.partner_phone = w1.applicant.partner_phone
  ∧ (runGeminiExtraction ctx decode w).applicant.linkedin_profile = w1.applicant.linkedin_profile
  ∧ (runGeminiExtraction ctx decode w).applicant.type_id = w1.applicant.type_id
  ∧ es.toList <:+:
      (runGeminiExtraction ctx decode w).applicant.gemini_extract_status.toList := by
  have h1 : runGeminiExtraction ctx decode w =
      { applicant := { w1.applicant with
          gemini_extract_state := ExtractState.done,
          gemini_extract_status := skillsFailMsgHead ++ es },
        env := w1.env } := by
    unfold runGeminiExtraction
    rw [hcore]
    simp only [hskills]
  refine ⟨h1, ?_, ?_, ?_, ?_, ?_, ?_⟩ <;> rw [h1]
  show es.toList <:+: (skillsFailMsgHead ++ es).data
  refine ⟨skillsFailMsgHead.data, [], ?_⟩
  have : (skillsFailMsgHead ++ es).data = skillsFailMsgHead.data ++ es.data := by
    cases skillsFailMsgHead
    cases es
    simp [String.data_append]
  rw [this]
  simp

/-- Sample decoder for the partially failing job: the payload carries a
name and a skills list whose entry has a non-string skill value, so the
core step succeeds and the skills step raises. -/
def decPartial : String → Option JVal := fun _ =>
  some (JVal.jobj [(keyName, JVal.jstr ("Ada")),
    (keySkills, JVal.jarr [JVal.jobj [(keySkill, JVal.jnum 1)]])])

/-- Sample context whose provider yields a brace-span response. -/
def ctxPartial : GeminiCtx :=
  { gemini_api_key := "k", gemini_model := "", skillsModuleInstalled := true,
    providerResponse := Except.ok ("\x7b stub \x7d"), degreeCreateOk := true }

/-- Core-step result of the partial-failure scenario. -/
def w1Partial : World :=
  { applicant := { sampleApplicant with
      partner_name := "Ada",
      name := "Ada" ++ applicationSuffix,
      gemini_extract_state := ExtractState.processing,
      gemini_extract_status := msgParsing },
    env := sampleEnv }

/-- Witness for C4: the concrete job keeps the core-written name, reaches
done, and reports the skills failure in the status. -/
theorem skills_failure_keeps_core_data_witness :
    runGeminiExtraction ctxPartial decPartial sampleWorld =
      { applicant := { w1Partial.applicant with
          gemini_extract_state := ExtractState.done,
          gemini_extract_status := skillsFailMsgHead ++ msgAttrLower },
        env := w1Partial.env } :=
  (skills_failure_keeps_core_data ctxPartial decPartial sampleWorld w1Partial
    (JVal.jarr [JVal.jobj [(keySkill, JVal.jnum 1)]]) msgAttrLower rfl rfl).1

/- ---------------------------------------------------------------------
   Claim C10: malformed skill input is skipped, not fatal
   --------------------------------------------------------------------- -/

/-- C10: the skills step silently skips malformed input: a truthy non-list
skills value makes the step do nothing, entries that are not objects or
lack a (truthy) skill name are skipped without creating anything, and in
all these cases no error is raised, so a job whose skills step returns
cleanly still reaches done with the full-success status message. -/
theorem malformed_skills_skipped :
    (∀ (aid : Nat) (env : TaxEnv) (v : JVal), pyTruthy v = true →
        (∀ items, v ≠ JVal.jarr items) → processSkills aid env v = Except.ok env)
  ∧ (∀ (aid : Nat) (st : PState) (fs : List (String × JVal)),
        pyTruthy (pyGet fs keySkill) = false →
        processSkillItem aid st (JVal.jobj fs) = Except.ok st)
  ∧ (∀ (aid : Nat) (st : PState) (item : JVal),
        (∀ fs, item ≠ JVal.jobj fs) → processSkillItem aid st item = Except.ok st)
  ∧ (∀ (ctx : GeminiCtx) (decode : String → Option JVal) (w w1 : World) (sk : JVal)
        (env2 : TaxEnv),
        coreStep ctx decode w = Except.ok (w1, some sk) →
        processSkills w1.applicant.id w1.env sk = Except.ok env2 →
        runGeminiExtraction ctx decode w =
          { applicant := { w1.applicant with
              gemini_extract_state := ExtractState.done,
              gemini_extract_status := successMsg },
            env := env2 }) := by
  refine ⟨?_, ?_, ?_, ?_⟩
  · intro aid env v ht hnl
    unfold processSkills
    rw [ht]
    cases v with
    | jarr items => exact absurd rfl (hnl items)
    | jnull => rfl
    | jbool b => rfl
    | jnum n => rfl
    | jstr s => rfl
    | jobj fields => rfl
  · intro aid st fs hs
    simp only [processSkillItem]
    rw [hs]
    rfl
  · intro aid st item hni
    cases item with
    | jobj fs => exact absurd rfl (hni fs)
    | jnull => rfl
    | jbool b => rfl
    | jnum n => rfl
    | jstr s => rfl
    | jarr items => rfl
  · intro ctx decode w w1 sk env2 hcore hskills
    unfold runGeminiExtraction
    rw [hcore]
    simp only [hskills]

/-- Sample decoder for the skipped-skills scenario: the skills value is a
truthy non-list (a string), which the skills step ignores. -/
def decNonListSkills : String → Option JVal := fun _ =>
  some (JVal.jobj [(keyName, JVal.jstr ("Zed")), (keySkills, JVal.jstr ("Python"))])

/-- Core-step result of the skipped-skills scenario. -/
def w1NonList : World :=
  { applicant := { sampleApplicant with
      partner_name := "Zed",
      name := "Zed" ++ applicationSuffix,
      gemini_extract_state := ExtractState.processing,
      gemini_extract_status := msgParsing },
    env := sampleEnv }

/-- Witness for C10: a payload whose skills value is the string Python
leaves the taxonomy untouched and the job ends done with the full-success
status. -/
theorem malformed_skills_skipped_witness :
    processSkills 7 sampleEnv (JVal.jstr ("Python")) = Except.ok sampleEnv
  ∧ runGeminiExtraction ctxPartial decNonListSkills sampleWorld =
      { applicant := { w1NonList.applicant with
          gemini_extract_state := ExtractState.done,
          gemini_extract_status := successMsg },
        env := sampleEnv } :=
  ⟨malformed_skills_skipped.1 7 sampleEnv (JVal.jstr ("Python")) (by decide)
      (fun items h => JVal.noConfusion h),
   malformed_skills_skipped.2.2.2 ctxPartial decNonListSkills sampleWorld w1NonList
      (JVal.jstr ("Python")) sampleEnv rfl rfl⟩

/- ---------------------------------------------------------------------
   Claim C3: state machine guards and synchronous empty-batch failure
   --------------------------------------------------------------------- -/

/-- C3: a record may enter pending only through the submit action, which
requires the eligibility predicate (manual-send extraction mode, attachment
present, state among no-extract, error, done); a record currently in
processing can only transition to done or to error; and submitting a batch
with no eligible record fails synchronously without writing anything. -/
theorem state_machine_guards :
    (∀ (mode : String) (a : Applicant),
        GeminiTransition mode a ExtractState.pending →
        canExtractWithGemini mode a = true ∧
        (a.gemini_extract_state = ExtractState.no_extract ∨
         a.gemini_extract_state = ExtractState.error ∨
         a.gemini_extract_state = ExtractState.done))
  ∧ (∀ (mode : String) (a : Applicant) (t : ExtractState),
        GeminiTransition mode a t →
        a.gemini_extract_state = ExtractState.processing →
        t = ExtractState.done ∨ t = ExtractState.error)
  ∧ (∀ (mode : String) (recs : List Applicant),
        (∀ a ∈ recs, canExtractWithGemini mode a = false) →
        actionExtractWithGemini mode recs = Except.error msgNoEligible) := by
  refine ⟨?_, ?_, ?_⟩
  · intro mode a htr
    cases htr with
    | submit h =>
      refine ⟨h, ?_⟩
      unfold canExtractWithGemini at h
      simp only [Bool.and_eq_true, Bool.or_eq_true, beq_iff_eq] at h
      exact or_assoc.mp h.2
  · intro mode a t htr hproc
    cases htr with
    | submit h =>
      unfold canExtractWithGemini at h
      simp only [Bool.and_eq_true, Bool.or_eq_true, beq_iff_eq] at h
      rw [hproc] at h
      rcases h.2 with (h2 | h2) | h2 <;> exact absurd h2 (by simp)
    | start_processing h =>
      rw [hproc] at h
      exact absurd h (by simp)
    | finish_done h => exact Or.inl rfl
    | core_fail h => exact Or.inr rfl
    | thread_fail => exact Or.inr rfl
  · intro mode recs hall
    unfold actionExtractWithGemini
    have hfil : recs.filter (canExtractWithGemini mode) = [] := by
      rw [List.filter_eq_nil_iff]
      intro a ha
      simp [hall a ha]
    rw [hfil]
    rfl

/-- Sample record stuck in processing (hence ineligible). -/
def processingApplicant : Applicant :=
  { sampleApplicant with gemini_extract_state := ExtractState.processing }

/-- Witness for C3: from a processing record the done transition lands in
the allowed set, and submitting a batch containing only that record fails
synchronously with the no-eligible-records error. -/
theorem state_machine_guards_witness :
    (ExtractState.done = ExtractState.done ∨ ExtractState.done = ExtractState.error)
  ∧ actionExtractWithGemini manualSendMode [processingApplicant] =
      Except.error msgNoEligible :=
  ⟨state_machine_guards.2.1 manualSendMode processingApplicant ExtractState.done
      (GeminiTransition.finish_done processingApplicant rfl) rfl,
   state_machine_guards.2.2 manualSendMode [processingApplicant] (by decide)⟩

end GeminiCv
